import Mathlib

/-
Verification development for the backend-node orchestration gateway.

Shallow embedding of the job-orchestration core:
  * src/models (Job, AnalysisResult, CleaningResult, User schemas)
  * src/services/analysisService.js  (runAnalysis)
  * src/unnamed/part_001             (cleaningService: runCleaning)
  * src/unnamed/part_000             (postgres auditLog)
  * src/unnamed/part_002             (upload route)
  * src/routes/analysis.js           (analyze/status/results/export/jobs routes)
  * src/unnamed/part_003 and part_004 (cleaning routes)
  * src/routes/auth.js               (login route)

MongoDB collections are modelled as Lean lists, the Postgres audit_log as an
append-only list, and the filesystem as the list of present paths.  The
external Python worker is modelled by its observable outcome (timeout,
non-2xx transport error, or a decoded JSON body), which the delegation
services consume exactly as the JavaScript does.  JavaScript `undefined`
fields are `Option`; the empty-string-falsy corner of `||` is noted where it
is folded into the `Option` model.
-/

set_option maxHeartbeats 1000000

namespace BackendNode

/-- Job status enum of the Job schema (src/models, JobSchema.status):
`unknown` is part of the enum but, per the routes, only ever produced as a
query answer for an inaccessible job. -/
inductive Status where
  | starting
  | running
  | completed
  | failed
  | cleaning
  | cleaned
  | unknown
deriving DecidableEq

/-- Job mode enum (JobSchema.mode). -/
inductive Mode where
  | normal
  | large
deriving DecidableEq

/-- String rendering of a status, as stored/returned by the routes. -/
def Status.str : Status → String
  | .starting => "starting"
  | .running => "running"
  | .completed => "completed"
  | .failed => "failed"
  | .cleaning => "cleaning"
  | .cleaned => "cleaned"
  | .unknown => "unknown"

/-- A Job document (JobSchema in src/models).  `_id` is `id` here. -/
structure Job where
  id : String
  status : Status
  mode : Mode
  user_id : String
  file_name : String
  file_path : Option String
  cleaned_file_path : Option String
deriving DecidableEq

/-- One entry of the worker's `rules_applied` list; its inner structure is
opaque to the Node code (audited verbatim), so it is an opaque token. -/
abbrev RuleApp := String

/-- The `meta` object inside a worker analysis result. -/
structure ResultMeta where
  file_path : Option String
  file_size_bytes : Option Nat
  mode : Option String
  analysis_type : Option String
  started_at : Option String
  completed_at : Option String
  duration_ms : Option Nat
deriving DecidableEq

/-- The `cleaned_data` object inside a worker analysis result; only `rows`
and `columns` are inspected by the Node code, the rest is opaque. -/
structure CleanedData where
  rows : Option Nat
  columns : Option Nat
  blob : String
deriving DecidableEq

/-- The `quality_report` object inside a worker analysis result.  Rates are
opaque numbers (never computed on by Node); `column_analysis` is an opaque
object, `none` standing for an absent one. -/
structure QualityReport where
  missing_rate : Option Int
  duplicate_rate : Option Int
  outlier_rate : Option Int
  column_analysis : Option String
deriving DecidableEq

/-- The `result` blob of a worker analysis response:
`{ cleaned_data, quality_report, meta }`, every field possibly absent. -/
structure ResultBlob where
  cleaned_data : Option CleanedData
  quality_report : Option QualityReport
  meta : Option ResultMeta
deriving DecidableEq

/-- Decoded JSON body of a 2xx worker response to `/internal/analyze`:
`{ job_id, status, result }` or `{ job_id, status, error }`. -/
structure AnalyzeData where
  status : Option String
  result : Option ResultBlob
  error : Option String
deriving DecidableEq

/-- The `summary` object of a worker cleaning response. -/
structure Summary where
  rows_before : Option Int
  rows_after : Option Int
  rows_removed : Option Int
deriving DecidableEq

/-- Decoded JSON body of a 2xx worker response to `/internal/clean`. -/
structure CleanData where
  status : Option String
  error : Option String
  mode : Option String
  rules_applied : Option (List RuleApp)
  summary : Option Summary
  cleaned_file_path : Option String
deriving DecidableEq

/-- Observable outcome of the `fetch` to the Python worker: the
AbortController fires (timeout), the response is non-2xx (`!response.ok`),
or a decoded 2xx JSON body. -/
inductive FetchOutcome (α : Type) where
  | timeout
  | httpError (code : Nat)
  | ok (data : α)
deriving DecidableEq

/-- Structured model of the JSON payloads passed to `auditLog`, one
constructor per call-site shape in the source. -/
inductive Payload where
  | empty
  | userId (uid : String)
  | fileInfo (fileName : String) (size : Nat) (mode : Mode)
  | modeInfo (mode : Option String)
  | errInfo (error : String)
  | cleanErr (phase : String) (error : String)
  | analysisDone (analysis_type : Option String) (duration_ms : Option Nat)
  | cleaningDone (cleaned_file_path : Option String) (rows_removed : Option Int)
  | ruleInfo (rule : RuleApp)
  | deletedBy (uid : String)
deriving DecidableEq

/-- A row of the Postgres `audit_log` table (src/unnamed/part_000). -/
structure AuditEvent where
  job_id : Option String
  event_type : String
  payload : Payload
deriving DecidableEq

/-- An AnalysisResult document (AnalysisSchema in src/models/AnalysisResult.js). -/
structure AnalysisRecord where
  job_id : String
  result : Option ResultBlob
  analysis_type : String
deriving DecidableEq

/-- A CleaningResult document (CleaningSchema in src/unnamed/part_005). -/
structure CleaningRecord where
  job_id : String
  mode : String
  rules_applied : Option (List RuleApp)
  summary : Option Summary
deriving DecidableEq

/-- A User document (src/models/User.js). -/
structure UserRec where
  id : String
  email : String
  password_hash : String
  role : String
deriving DecidableEq

/-- The authenticated request context `req.user = { id, role }` set by the
auth middleware (src/middleware/auth.js). -/
structure UserCtx where
  id : String
  role : String
deriving DecidableEq

/-- `req.file` as produced by multer in the upload route. -/
structure UploadFile where
  originalname : String
  path : String
  size : Nat
deriving DecidableEq

/-- Global persistent state: the two Mongo collections of results, the jobs
collection, the Postgres audit log (append-only), and the set of on-disk
file paths. -/
structure St where
  jobs : List Job
  analysisResults : List AnalysisRecord
  cleaningResults : List CleaningRecord
  audit : List AuditEvent
  files : List String
deriving DecidableEq

/-! ### Store primitives -/

/-- `Job.findById` — first document whose `_id` matches. -/
def findById (jobs : List Job) (jobId : String) : Option Job :=
  jobs.find? (fun j => j.id == jobId)

/-- `updateOne` semantics: update the first matching document, if any. -/
def updateFirst (p : Job → Bool) (f : Job → Job) : List Job → List Job
  | [] => []
  | j :: js => if p j then f j :: js else j :: updateFirst p f js

/-- `Job.updateOne({ _id: jobId }, { $set: { status } })`. -/
def setJobStatus (s : St) (jobId : String) (st : Status) : St :=
  { s with jobs := (updateFirst (fun j => j.id == jobId)
      (fun j => { j with status := st }) s.jobs) }

/-- `Job.updateOne({ _id }, { $set: { cleaned_file_path, status: 'cleaned' } })`.
Mongoose strips an `undefined` value from `$set`, so an absent
`cleaned_file_path` leaves the stored one unchanged. -/
def setJobCleaned (s : St) (jobId : String) (cfp : Option String) : St :=
  { s with jobs := (updateFirst (fun j => j.id == jobId)
      (fun j => { j with
        cleaned_file_path := match cfp with
          | some p => some p
          | none => j.cleaned_file_path,
        status := .cleaned }) s.jobs) }

/-- `auditLog(jobId, eventType, payload)` — one INSERT into the append-only
`audit_log` table (src/unnamed/part_000). -/
def auditLog (s : St) (jobId : String) (eventType : String) (payload : Payload) : St :=
  { s with audit := s.audit ++ [{ job_id := some jobId, event_type := eventType,
                                  payload := payload }] }

/-- `replaceOne(filter, doc)` on a matched document: replace the first
document with the given key. -/
def replaceFirstBy {α : Type} (key : α → String) (k : String) (r : α) :
    List α → List α
  | [] => []
  | x :: xs => if key x == k then r :: xs else x :: replaceFirstBy key k r xs

/-- `replaceOne({ job_id }, doc, { upsert: true })`: replace the matched
document, or insert when no document matches. -/
def upsertBy {α : Type} (key : α → String) (l : List α) (r : α) : List α :=
  if l.any (fun x => key x == key r) then replaceFirstBy key (key r) r l
  else l ++ [r]

/-! ### Delegation services -/

/-- 10-minute analysis timeout, `ANALYSIS_TIMEOUT_MS` in
src/services/analysisService.js.  Wall-clock time itself is not modelled;
`FetchOutcome.timeout` stands for the AbortController firing. -/
def ANALYSIS_TIMEOUT_MS : Nat := 10 * 60 * 1000

/-- 10-minute cleaning timeout, `CLEANING_TIMEOUT_MS` in src/unnamed/part_001. -/
def CLEANING_TIMEOUT_MS : Nat := 10 * 60 * 1000

/-- Message of the AbortError raised when the AbortController fires. -/
def abortErrorMessage : String := "This operation was aborted"

/-- Message of the error thrown on `!response.ok`. -/
def httpErrorMessage (code : Nat) : String :=
  "Python service returned HTTP " ++ toString code

/-- Message of the TypeError thrown by `for (const r of data.rules_applied)`
when `rules_applied` is absent. -/
def rulesNotIterableMessage : String := "data.rules_applied is not iterable"

/-- Message of the TypeError thrown by `data.summary.rows_removed` when
`summary` is absent. -/
def summaryUndefinedMessage : String :=
  "Cannot read properties of undefined reading rows_removed"

/-- `data.result?.meta?.analysis_type`. -/
def resultAnalysisType (r : Option ResultBlob) : Option String :=
  (r.bind (fun b => b.meta)).bind (fun m => m.analysis_type)

/-- `data.result?.meta?.duration_ms`. -/
def resultDurationMs (r : Option ResultBlob) : Option Nat :=
  (r.bind (fun b => b.meta)).bind (fun m => m.duration_ms)

/-- The catch-block of `runAnalysis`: set status `failed`, audit
`ANALYSIS_FAILED` with the error message. -/
def analysisCatch (s : St) (jobId : String) (msg : String) : St :=
  auditLog (setJobStatus s jobId .failed) jobId "ANALYSIS_FAILED" (.errInfo msg)

/-- Synchronous prefix of `runAnalysis` up to the worker call (the `await
fetch` suspension point): look the job up, set status `running`, audit
`ANALYSIS_STARTED`.  Returns `false` when `!job || !job.file_path` throws
before any write. -/
def runAnalysisStart (s : St) (jobId : String) : St × Bool :=
  match findById s.jobs jobId with
  | none => (s, false)
  | some job =>
    if job.file_path.isSome then
      (auditLog (setJobStatus s jobId .running) jobId "ANALYSIS_STARTED" .empty, true)
    else (s, false)

/-- Continuation of `runAnalysis` after the worker call returns (or times
out): the try/catch body from the `fetch` outcome onwards. -/
def runAnalysisFinish (s : St) (jobId : String) (resp : FetchOutcome AnalyzeData) :
    St × Except String Unit :=
  match resp with
  | .timeout => (analysisCatch s jobId abortErrorMessage, .error abortErrorMessage)
  | .httpError c => (analysisCatch s jobId (httpErrorMessage c),
                     .error (httpErrorMessage c))
  | .ok data =>
    if data.status = some "failed" then
      let msg := data.error.getD "Python analysis failed"
      (analysisCatch s jobId msg, .error msg)
    else
      let record : AnalysisRecord :=
        { job_id := jobId,
          result := data.result,
          analysis_type := (resultAnalysisType data.result).getD "in-memory" }
      let s1 := { s with analysisResults :=
                    upsertBy AnalysisRecord.job_id s.analysisResults record }
      let s2 := setJobStatus s1 jobId .completed
      let s3 := auditLog s2 jobId "ANALYSIS_COMPLETED"
        (.analysisDone (resultAnalysisType data.result) (resultDurationMs data.result))
      (s3, .ok ())

/-- `runAnalysis(jobId)` of src/services/analysisService.js, with the worker
outcome as an explicit input. -/
def runAnalysis (s : St) (jobId : String) (resp : FetchOutcome AnalyzeData) :
    St × Except String Unit :=
  match runAnalysisStart s jobId with
  | (s1, true) => runAnalysisFinish s1 jobId resp
  | (s1, false) => (s1, .error "Job or file not found")

/-- `cleaningOptions` argument of `runCleaning` (`{ mode, rules }`, both
possibly absent; `rules` is opaque to Node, forwarded to the worker). -/
structure CleanOpts where
  mode : Option String
  rules : Option String
deriving DecidableEq

/-- JavaScript `a || b` on two possibly-absent strings (the
empty-string-falsy corner is folded into absence). -/
def firstSome (a b : Option String) : Option String :=
  match a with
  | some x => some x
  | none => b

/-- The catch-block of `runCleaning`: set status `completed` (fallback, not
`failed`), audit an `ERROR` event with phase `cleaning`. -/
def cleaningCatch (s : St) (jobId : String) (msg : String) : St :=
  auditLog (setJobStatus s jobId .completed) jobId "ERROR" (.cleanErr "cleaning" msg)

/-- Synchronous prefix of `runCleaning` up to the worker call: look the job
up, set status `cleaning`, audit `CLEANING_STARTED`. -/
def runCleaningStart (s : St) (jobId : String) (opts : CleanOpts) : St × Bool :=
  match findById s.jobs jobId with
  | none => (s, false)
  | some job =>
    if job.file_path.isSome then
      (auditLog (setJobStatus s jobId .cleaning) jobId "CLEANING_STARTED"
        (.modeInfo opts.mode), true)
    else (s, false)

/-- Continuation of `runCleaning` after the worker call returns.  Note the
source order: the result is upserted and the job is marked `cleaned` BEFORE
the `rules_applied` iteration and the `summary.rows_removed` access, so a
structurally incomplete success body diverts to the catch-block only after
those writes. -/
def runCleaningFinish (s : St) (jobId : String) (opts : CleanOpts)
    (resp : FetchOutcome CleanData) : St × Except String Unit :=
  match resp with
  | .timeout => (cleaningCatch s jobId abortErrorMessage, .error abortErrorMessage)
  | .httpError c => (cleaningCatch s jobId (httpErrorMessage c),
                     .error (httpErrorMessage c))
  | .ok data =>
    if data.status = some "failed" then
      let msg := data.error.getD "Python cleaning failed"
      (cleaningCatch s jobId msg, .error msg)
    else
      let record : CleaningRecord :=
        { job_id := jobId,
          mode := (firstSome data.mode opts.mode).getD "auto",
          rules_applied := data.rules_applied,
          summary := data.summary }
      let s1 := { s with cleaningResults :=
                    upsertBy CleaningRecord.job_id s.cleaningResults record }
      let s2 := setJobCleaned s1 jobId data.cleaned_file_path
      match data.rules_applied with
      | none => (cleaningCatch s2 jobId rulesNotIterableMessage,
                 .error rulesNotIterableMessage)
      | some rs =>
        let s3 := rs.foldl (fun acc r => auditLog acc jobId "RULE_APPLIED"
                              (.ruleInfo r)) s2
        match data.summary with
        | none => (cleaningCatch s3 jobId summaryUndefinedMessage,
                   .error summaryUndefinedMessage)
        | some sm =>
          let s4 := auditLog s3 jobId "CLEANING_COMPLETED"
            (.cleaningDone data.cleaned_file_path sm.rows_removed)
          (s4, .ok ())

/-- `runCleaning(jobId, cleaningOptions)` of src/unnamed/part_001, with the
worker outcome as an explicit input. -/
def runCleaning (s : St) (jobId : String) (opts : CleanOpts)
    (resp : FetchOutcome CleanData) : St × Except String Unit :=
  match runCleaningStart s jobId opts with
  | (s1, true) => runCleaningFinish s1 jobId opts resp
  | (s1, false) => (s1, .error "Job or file not found")

/-! ### HTTP layer -/

/-- Flattened export report built by `GET /results/:jobId/export`
(src/routes/analysis.js); the nesting of the JSON object is flattened, the
defaulting logic is kept. -/
structure ExportReport where
  job_id : String
  file_path : Option String
  file_size_bytes : Option Nat
  mode : String
  analysis_type : String
  started_at : Option String
  completed_at : Option String
  duration_ms : Option Nat
  version : String
  rows : Nat
  columns : Nat
  missing_rate : Option Int
  duplicate_rate : Option Int
  error_rate : Option Int
  column_analysis : Option String
  approximate_metrics : Bool
  skipped_checks : List String
deriving DecidableEq

/-- JSON response bodies, one constructor per body shape in the routes. -/
inductive RespBody where
  | errorMsg (msg : String)
  | detailMsg (msg : String)
  | statusMsg (status : String)
  | jobIdMsg (job_id : String)
  | message (msg : String)
  | resultsMsg (cleaned_data : Option CleanedData) (quality_report : Option QualityReport)
  | exportMsg (report : ExportReport)
  | cleanAck (job_id : String) (status : String)
  | fileStream (path : String)
  | cleaningResultMsg (r : CleaningRecord)
  | deleteOk (deleted : Nat) (job_ids : List String)
  | userMsg (id : String) (email : String) (role : String)
deriving DecidableEq

/-- An HTTP response: status code and JSON body. -/
structure HttpResp where
  code : Nat
  body : RespBody
deriving DecidableEq

/-- JavaScript `x || null` on a possibly-absent number (0 is falsy). -/
def jsOrNullNat (o : Option Nat) : Option Nat :=
  match o with
  | some 0 => none
  | x => x

/-- JavaScript `x || null` on a possibly-absent string (empty is falsy). -/
def jsOrNullStr (o : Option String) : Option String :=
  match o with
  | some "" => none
  | x => x

/-- JavaScript `x || d` on a possibly-absent string. -/
def jsOrStr (o : Option String) (d : String) : String :=
  match o with
  | some "" => d
  | some x => x
  | none => d

/-- `findOwnedJob(jobId, user)` of src/routes/analysis.js (the identical
helper also appears in src/unnamed/part_003 and part_004): admins access any
job, others only their own; an inaccessible job is indistinguishable from an
absent one. -/
def findOwnedJob (s : St) (jobId : String) (user : UserCtx) : Option Job :=
  match findById s.jobs jobId with
  | none => none
  | some job =>
    if user.role = "admin" then some job
    else if job.user_id ≠ user.id then none
    else some job

/-- `POST /analyze/:jobId`.  The fire-and-forget `runAnalysis` call is a
separate background step (`Op.analysisStart`/`Op.analysisFinish`); the route
itself only audits `ANALYSIS_ENQUEUED` and acknowledges. -/
def postAnalyze (s : St) (user : UserCtx) (jobId : String) : St × HttpResp :=
  match findOwnedJob s jobId user with
  | none => (s, ⟨404, .detailMsg "No uploaded file found for this job."⟩)
  | some _ =>
    (auditLog s jobId "ANALYSIS_ENQUEUED" .empty, ⟨200, .message "analysis started"⟩)

/-- `GET /status/:jobId`: the job status, or `unknown` when inaccessible. -/
def getStatus (s : St) (user : UserCtx) (jobId : String) : HttpResp :=
  match findOwnedJob s jobId user with
  | some job => ⟨200, .statusMsg job.status.str⟩
  | none => ⟨200, .statusMsg "unknown"⟩

/-- `GET /results/:jobId`: `{ cleaned_data, quality_report }` destructured
from the stored result, 404 when job or result (or its `result` field) is
absent. -/
def getResults (s : St) (user : UserCtx) (jobId : String) : HttpResp :=
  match findOwnedJob s jobId user with
  | none => ⟨404, .detailMsg "Results not found"⟩
  | some _ =>
    match s.analysisResults.find? (fun r => r.job_id == jobId) with
    | none => ⟨404, .detailMsg "Results not found"⟩
    | some a =>
      match a.result with
      | none => ⟨404, .detailMsg "Results not found"⟩
      | some blob => ⟨200, .resultsMsg blob.cleaned_data blob.quality_report⟩

/-- The export-report construction of `GET /results/:jobId/export`. -/
def buildExportReport (jobId : String) (blob : ResultBlob) : ExportReport :=
  { job_id := jobId,
    file_path := jsOrNullStr (blob.meta.bind (fun m => m.file_path)),
    file_size_bytes := jsOrNullNat (blob.meta.bind (fun m => m.file_size_bytes)),
    mode := jsOrStr (blob.meta.bind (fun m => m.mode)) "normal",
    analysis_type := jsOrStr (blob.meta.bind (fun m => m.analysis_type)) "in-memory",
    started_at := jsOrNullStr (blob.meta.bind (fun m => m.started_at)),
    completed_at := jsOrNullStr (blob.meta.bind (fun m => m.completed_at)),
    duration_ms := jsOrNullNat (blob.meta.bind (fun m => m.duration_ms)),
    version := "1.0",
    rows := (blob.cleaned_data.bind (fun c => c.rows)).getD 0,
    columns := (blob.cleaned_data.bind (fun c => c.columns)).getD 0,
    missing_rate := blob.quality_report.bind (fun q => q.missing_rate),
    duplicate_rate := blob.quality_report.bind (fun q => q.duplicate_rate),
    error_rate := blob.quality_report.bind (fun q => q.outlier_rate),
    column_analysis := blob.quality_report.bind (fun q => q.column_analysis),
    approximate_metrics := false,
    skipped_checks := [] }

/-- `GET /results/:jobId/export`. -/
def getResultsExport (s : St) (user : UserCtx) (jobId : String) : HttpResp :=
  match findOwnedJob s jobId user with
  | none => ⟨404, .detailMsg "Results not found"⟩
  | some _ =>
    match s.analysisResults.find? (fun r => r.job_id == jobId) with
    | none => ⟨404, .detailMsg "Results not found"⟩
    | some a =>
      match a.result with
      | none => ⟨404, .detailMsg "Results not found"⟩
      | some blob => ⟨200, .exportMsg (buildExportReport jobId blob)⟩

/-- `POST /clean/:jobId` (src/unnamed/part_003 and part_004).  The
fire-and-forget `runCleaning` call is a separate background step; the route
audits `CLEANING_ENQUEUED` and acknowledges. -/
def postClean (s : St) (user : UserCtx) (jobId : String)
    (mode rules : Option String) : St × HttpResp :=
  match findOwnedJob s jobId user with
  | none => (s, ⟨404, .errorMsg "Job not found"⟩)
  | some _ =>
    let opts : CleanOpts := { mode := some (mode.getD "auto"),
                              rules := some (rules.getD "") }
    (auditLog s jobId "CLEANING_ENQUEUED" (.modeInfo opts.mode),
     ⟨200, .cleanAck jobId "cleaning_started"⟩)

/-- `GET /cleaned/:jobId`: streams the cleaned artifact, 404 when job,
stored path, or on-disk file is absent. -/
def getCleaned (s : St) (user : UserCtx) (jobId : String) : HttpResp :=
  match findOwnedJob s jobId user with
  | none => ⟨404, .errorMsg "Cleaned file not found"⟩
  | some job =>
    match job.cleaned_file_path with
    | none => ⟨404, .errorMsg "Cleaned file not found"⟩
    | some p =>
      if p ∈ s.files then ⟨200, .fileStream p⟩
      else ⟨404, .errorMsg "File missing on disk"⟩

/-- `GET /cleaning-result/:jobId`. -/
def getCleaningResult (s : St) (user : UserCtx) (jobId : String) : HttpResp :=
  match findOwnedJob s jobId user with
  | none => ⟨404, .errorMsg "Not found"⟩
  | some _ =>
    match s.cleaningResults.find? (fun r => r.job_id == jobId) with
    | none => ⟨404, .errorMsg "Not found"⟩
    | some r => ⟨200, .cleaningResultMsg r⟩

/-- Fixed upload size threshold (50 MiB) of src/unnamed/part_002. -/
def UPLOAD_LARGE_THRESHOLD : Nat := 50 * 1024 * 1024

/-- `POST /upload` (src/unnamed/part_002): create the job with status
`starting` and size-derived mode, audit `JOB_CREATED` and `FILE_UPLOADED`,
answer `{ job_id }`.  The generated uuid is an explicit input. -/
def postUpload (s : St) (user : UserCtx) (jobId : String)
    (file : Option UploadFile) : St × HttpResp :=
  match file with
  | none => (s, ⟨400, .errorMsg "No file uploaded"⟩)
  | some f =>
    let mode := if f.size > UPLOAD_LARGE_THRESHOLD then Mode.large else Mode.normal
    let job : Job :=
      { id := jobId, status := .starting, mode := mode, user_id := user.id,
        file_name := f.originalname, file_path := some f.path,
        cleaned_file_path := none }
    let s1 := { s with jobs := s.jobs ++ [job] }
    let s2 := auditLog s1 jobId "JOB_CREATED" (.userId user.id)
    let s3 := auditLog s2 jobId "FILE_UPLOADED" (.fileInfo f.originalname f.size mode)
    (s3, ⟨200, .jobIdMsg jobId⟩)

/-- The ownership filter of `DELETE /jobs`: listed, and owned unless admin. -/
def deleteFilter (user : UserCtx) (ids : List String) (j : Job) : Bool :=
  ids.contains j.id && (user.role == "admin" || j.user_id == user.id)

/-- `DELETE /jobs` (src/routes/analysis.js): fetch the listed jobs passing
the ownership filter, best-effort unlink their artifacts, delete them and
their results, audit `JOB_DELETED` per deleted id, answer the deleted ids. -/
def deleteJobs (s : St) (user : UserCtx) (job_ids : Option (List String)) :
    St × HttpResp :=
  match job_ids with
  | none => (s, ⟨400, .errorMsg "job_ids array is required"⟩)
  | some ids =>
    if ids.isEmpty then (s, ⟨400, .errorMsg "job_ids array is required"⟩)
    else
      let owned := s.jobs.filter (deleteFilter user ids)
      let ownedIds := owned.map (fun j => j.id)
      if ownedIds.isEmpty then (s, ⟨404, .errorMsg "No matching jobs found"⟩)
      else
        let files := s.files.filter (fun p =>
          !(owned.any (fun j => j.file_path == some p || j.cleaned_file_path == some p)))
        let jobs := s.jobs.filter (fun j => !(ownedIds.contains j.id))
        let ar := s.analysisResults.filter (fun r => !(ownedIds.contains r.job_id))
        let cr := s.cleaningResults.filter (fun r => !(ownedIds.contains r.job_id))
        let s1 := { s with jobs := jobs, analysisResults := ar,
                           cleaningResults := cr, files := files }
        let s2 := ownedIds.foldl (fun acc i =>
          auditLog acc i "JOB_DELETED" (.deletedBy user.id)) s1
        (s2, ⟨200, .deleteOk ownedIds.length ownedIds⟩)

/-- `POST /login` (src/routes/auth.js).  `check c h` models
`bcrypt.compare(c, h)`; the identity cookie is outside the response body. -/
def postLogin (check : String → String → Bool) (users : List UserRec)
    (email password : String) : HttpResp :=
  if email = "" ∨ password = "" then
    ⟨400, .errorMsg "Email and password are required"⟩
  else
    match users.find? (fun u => u.email == email) with
    | none => ⟨401, .errorMsg "Invalid email or password"⟩
    | some u =>
      if check password u.password_hash then ⟨200, .userMsg u.id u.email u.role⟩
      else ⟨401, .errorMsg "Invalid email or password"⟩

/-! ### Operations of the system -/

/-- Every state-mutating operation of the system.  A background delegation
is split at its suspension point (the awaited worker call) into a start and
a finish step, matching the interleaving model of the design: the state
after the start step is observable by concurrent requests. -/
inductive Op where
  | upload (user : UserCtx) (jobId : String) (file : Option UploadFile)
  | analyzeRoute (user : UserCtx) (jobId : String)
  | cleanRoute (user : UserCtx) (jobId : String) (mode rules : Option String)
  | analysisTaskStart (jobId : String)
  | analysisTaskFinish (jobId : String) (resp : FetchOutcome AnalyzeData)
  | cleaningTaskStart (jobId : String) (opts : CleanOpts)
  | cleaningTaskFinish (jobId : String) (opts : CleanOpts) (resp : FetchOutcome CleanData)
  | deleteJobsOp (user : UserCtx) (job_ids : Option (List String))

/-- State effect of one operation.  Read-only routes (`GET /status`,
`/results`, `/results/export`, `/cleaned`, `/cleaning-result`, `/login`) are
functions returning only a response and cannot mutate the state. -/
def step (s : St) : Op → St
  | .upload user jobId file => (postUpload s user jobId file).1
  | .analyzeRoute user jobId => (postAnalyze s user jobId).1
  | .cleanRoute user jobId mode rules => (postClean s user jobId mode rules).1
  | .analysisTaskStart jobId => (runAnalysisStart s jobId).1
  | .analysisTaskFinish jobId resp => (runAnalysisFinish s jobId resp).1
  | .cleaningTaskStart jobId opts => (runCleaningStart s jobId opts).1
  | .cleaningTaskFinish jobId opts resp => (runCleaningFinish s jobId opts resp).1
  | .deleteJobsOp user job_ids => (deleteJobs s user job_ids).1

/-! ### Specification-side definitions -/

/-- The events of the spec's section 4.1 transition table. -/
inductive SpecEvent where
  | analysisDelegated
  | analysisWorkerSuccess
  | analysisWorkerFailure
  | cleaningDelegated
  | cleaningWorkerSuccess
  | cleaningWorkerFailure
deriving DecidableEq

/-- Modelled from the spec: the from-states of each edge of the section 4.1
transition table. -/
def specFromStates : SpecEvent → List Status
  | .analysisDelegated => [.starting]
  | .analysisWorkerSuccess => [.running]
  | .analysisWorkerFailure => [.running]
  | .cleaningDelegated => [.completed, .failed, .cleaned]
  | .cleaningWorkerSuccess => [.cleaning]
  | .cleaningWorkerFailure => [.cleaning]

/-- Modelled from the spec: the to-state of each edge of the section 4.1
transition table. -/
def specToState : SpecEvent → Status
  | .analysisDelegated => .running
  | .analysisWorkerSuccess => .completed
  | .analysisWorkerFailure => .failed
  | .cleaningDelegated => .cleaning
  | .cleaningWorkerSuccess => .cleaned
  | .cleaningWorkerFailure => .completed

/-- The statuses reachable via the section 4.1 table (`unknown` is only a
query answer, never stored). -/
def validStatuses : List Status :=
  [.starting, .running, .completed, .failed, .cleaning, .cleaned]

/-- The spec's closed set of audit event categories (section 4.3 / claim C7). -/
inductive EventClass where
  | jobCreated
  | fileReceived
  | operationEnqueued
  | operationStarted
  | ruleApplied
  | operationCompleted
  | operationFailed
  | jobDeleted
deriving DecidableEq

/-- Classification of every concrete event-type string the source appends
onto the spec's closed set of categories.  `ERROR` is the cleaning-failure
event (emitted exactly on the cleaning catch path, with the failure
detail), i.e. the cleaning operation-failed category. -/
def eventClass : String → Option EventClass
  | "JOB_CREATED" => some .jobCreated
  | "FILE_UPLOADED" => some .fileReceived
  | "ANALYSIS_ENQUEUED" => some .operationEnqueued
  | "CLEANING_ENQUEUED" => some .operationEnqueued
  | "ANALYSIS_STARTED" => some .operationStarted
  | "CLEANING_STARTED" => some .operationStarted
  | "RULE_APPLIED" => some .ruleApplied
  | "ANALYSIS_COMPLETED" => some .operationCompleted
  | "CLEANING_COMPLETED" => some .operationCompleted
  | "ANALYSIS_FAILED" => some .operationFailed
  | "ERROR" => some .operationFailed
  | "JOB_DELETED" => some .jobDeleted
  | _ => none

/-- Status of a job in a state, as a query. -/
def statusOf (s : St) (jobId : String) : Option Status :=
  (findById s.jobs jobId).map (fun j => j.status)

/-- A state with every job of a given id removed (for the hyperproperty
claims comparing a state against one where the job does not exist). -/
def removeJob (s : St) (jobId : String) : St :=
  { s with jobs := s.jobs.filter (fun j => !(j.id == jobId)) }

/-- The branch condition of the analysis try-block failure paths: abort
(timeout), `!response.ok`, or a 2xx body with `status: "failed"`. -/
def analysisWorkerFailed : FetchOutcome AnalyzeData → Bool
  | .timeout => true
  | .httpError _ => true
  | .ok d => d.status == some "failed"

/-- The error message recorded by the analysis catch-block per outcome. -/
def analysisFailureMessage : FetchOutcome AnalyzeData → String
  | .timeout => abortErrorMessage
  | .httpError c => httpErrorMessage c
  | .ok d => d.error.getD "Python analysis failed"

/-- The branch condition of the cleaning try-block failure paths. -/
def cleaningWorkerFailed : FetchOutcome CleanData → Bool
  | .timeout => true
  | .httpError _ => true
  | .ok d => d.status == some "failed"

/-- The error message recorded by the cleaning catch-block per outcome. -/
def cleaningFailureMessage : FetchOutcome CleanData → String
  | .timeout => abortErrorMessage
  | .httpError c => httpErrorMessage c
  | .ok d => d.error.getD "Python cleaning failed"

/-- An operation-started audit event type. -/
def isStartedEvent (e : AuditEvent) : Bool :=
  e.event_type == "ANALYSIS_STARTED" || e.event_type == "CLEANING_STARTED"

/-- A terminal (completion or failure) audit event type. -/
def isTerminalEvent (e : AuditEvent) : Bool :=
  e.event_type == "ANALYSIS_COMPLETED" || e.event_type == "CLEANING_COMPLETED"
    || e.event_type == "ANALYSIS_FAILED" || e.event_type == "ERROR"

/-- A rule-applied audit event type. -/
def isRuleEvent (e : AuditEvent) : Bool :=
  e.event_type == "RULE_APPLIED"

/-! #### Concrete inputs used by witnesses and counterexamples -/

/-- A freshly uploaded job (status `starting`). -/
def c1Job : Job :=
  { id := "j1", status := .starting, mode := .normal, user_id := "u1",
    file_name := "data.csv", file_path := some "uploads/j1.csv",
    cleaned_file_path := none }

def c1St : St :=
  { jobs := [c1Job], analysisResults := [], cleaningResults := [],
    audit := [], files := [] }

def c7User : UserCtx := { id := "u1", role := "user" }

def c7File : UploadFile :=
  { originalname := "data.csv", path := "uploads/j1.csv", size := 10 }

def c7St : St :=
  { jobs := [], analysisResults := [], cleaningResults := [], audit := [], files := [] }

def c7Evt : AuditEvent :=
  { job_id := some "j1", event_type := "JOB_CREATED", payload := .userId "u1" }

def c3Ra : FetchOutcome AnalyzeData := .timeout

def c3Rc : FetchOutcome CleanData := .timeout

def c4Opts : CleanOpts := { mode := some "auto", rules := some "" }

def c4Da : AnalyzeData := { status := some "ok", result := none, error := none }

def c4Sm : Summary :=
  { rows_before := some 10, rows_after := some 9, rows_removed := some 1 }

def c4Dc : CleanData :=
  { status := some "ok", error := none, mode := some "auto",
    rules_applied := some ["r1"], summary := some c4Sm,
    cleaned_file_path := some "uploads/j1-cleaned.csv" }

/-- A 2xx analysis body that signals success but carries no result blob. -/
def c2Da : AnalyzeData := { status := some "ok", result := none, error := none }

/-- A 2xx cleaning body that signals success but carries no rule list. -/
def c2Dc : CleanData :=
  { status := some "ok", error := none, mode := some "auto",
    rules_applied := none, summary := some c4Sm,
    cleaned_file_path := some "uploads/j1-cleaned.csv" }

def c2Opts : CleanOpts := { mode := some "auto", rules := some "" }

/-- An authenticated non-admin subject distinct from the owner of `c1Job`. -/
def c5User : UserCtx := { id := "u2", role := "user" }

def c6Rec1 : AnalysisRecord :=
  { job_id := "j1", result := none, analysis_type := "in-memory" }

def c6Rec2 : AnalysisRecord :=
  { job_id := "j1", result := none, analysis_type := "streaming" }

def c6Crec1 : CleaningRecord :=
  { job_id := "j1", mode := "auto", rules_applied := some ["r1"], summary := none }

def c6Crec2 : CleaningRecord :=
  { job_id := "j1", mode := "manual", rules_applied := some ["r2"], summary := none }

def c10User : UserRec :=
  { id := "u1", email := "a@b.c", password_hash := "stored-hash", role := "user" }

/-- A concrete stand-in for `bcrypt.compare`. -/
def c10Check : String → String → Bool := fun candidate hash => candidate == hash

/-! ### Store lemmas -/

theorem findById_updateFirst (l : List Job) (jobId : String) (f : Job → Job)
    (hf : ∀ j, (f j).id = j.id) :
    findById (updateFirst (fun j => j.id == jobId) f l) jobId
      = (findById l jobId).map f := by
  induction l with
  | nil => rfl
  | cons a as ih =>
    by_cases h : a.id = jobId
    · simp [updateFirst, findById, List.find?_cons, h, hf]
    · have hb : (a.id == jobId) = false := beq_eq_false_iff_ne.mpr h
      simp only [updateFirst, findById, List.find?_cons] at ih ⊢
      simp [hb, ih]

theorem mem_updateFirst {p : Job → Bool} {f : Job → Job} {l : List Job} {j : Job}
    (h : j ∈ updateFirst p f l) : j ∈ l ∨ ∃ a, a ∈ l ∧ j = f a := by
  induction l with
  | nil => simp [updateFirst] at h
  | cons b bs ih =>
    simp only [updateFirst] at h
    split at h
    · rcases List.mem_cons.mp h with h1 | h1
      · exact Or.inr ⟨b, List.mem_cons_self b bs, h1⟩
      · exact Or.inl (List.mem_cons_of_mem b h1)
    · rcases List.mem_cons.mp h with h1 | h1
      · exact Or.inl (h1 ▸ List.mem_cons_self b bs)
      · rcases ih h1 with h2 | ⟨a, ha, h2⟩
        · exact Or.inl (List.mem_cons_of_mem b h2)
        · exact Or.inr ⟨a, List.mem_cons_of_mem b ha, h2⟩

theorem findById_filter_self (l : List Job) (jobId : String) :
    findById (l.filter (fun j => !(j.id == jobId))) jobId = none := by
  rw [findById, List.find?_eq_none]
  intro j hj
  rcases List.mem_filter.mp hj with ⟨_, hne⟩
  simpa using hne

theorem foldl_auditLog_ruleApplied (rs : List RuleApp) (s : St) (jobId : String) :
    rs.foldl (fun acc r => auditLog acc jobId "RULE_APPLIED" (.ruleInfo r)) s
      = { s with audit := s.audit ++ rs.map (fun r =>
            { job_id := some jobId, event_type := "RULE_APPLIED",
              payload := .ruleInfo r }) } := by
  induction rs generalizing s with
  | nil => simp
  | cons r rs ih =>
    rw [List.foldl_cons, ih]
    simp [auditLog]

theorem foldl_auditLog_jobDeleted (ids : List String) (s : St) (uid : String) :
    ids.foldl (fun acc i => auditLog acc i "JOB_DELETED" (.deletedBy uid)) s
      = { s with audit := s.audit ++ ids.map (fun i =>
            { job_id := some i, event_type := "JOB_DELETED",
              payload := .deletedBy uid }) } := by
  induction ids generalizing s with
  | nil => simp
  | cons i ids ih =>
    rw [List.foldl_cons, ih]
    simp [auditLog]

/-! ### Upsert lemmas -/

theorem countP_replaceFirstBy {α : Type} (key : α → String) (r : α)
    (l : List α) (k : String) :
    (replaceFirstBy key (key r) r l).countP (fun x => key x == k)
      = l.countP (fun x => key x == k) := by
  induction l with
  | nil => rfl
  | cons a as ih =>
    by_cases h : key a = key r
    · simp [replaceFirstBy, h, List.countP_cons]
    · simp [replaceFirstBy, h, List.countP_cons, ih]

theorem filter_replaceFirstBy {α : Type} (key : α → String) (r : α)
    (l : List α)
    (hcount : l.countP (fun x => key x == key r) ≤ 1)
    (hany : l.any (fun x => key x == key r) = true) :
    (replaceFirstBy key (key r) r l).filter (fun x => key x == key r) = [r] := by
  induction l with
  | nil => simp at hany
  | cons a as ih =>
    by_cases h : key a = key r
    · have hb : (key a == key r) = true := beq_iff_eq.mpr h
      have hz : as.countP (fun x => key x == key r) = 0 := by
        have h2 := hcount
        simp only [List.countP_cons, hb, if_true] at h2
        omega
      have hnil : as.filter (fun x => key x == key r) = [] := by
        rw [List.countP_eq_length_filter] at hz
        exact List.length_eq_zero.mp hz
      simp [replaceFirstBy, hb, List.filter_cons, hnil]
    · have hb : (key a == key r) = false := beq_eq_false_iff_ne.mpr h
      have hany' : as.any (fun x => key x == key r) = true := by
        simpa [hb] using hany
      have hcount' : as.countP (fun x => key x == key r) ≤ 1 := by
        simpa [List.countP_cons, hb] using hcount
      simp [replaceFirstBy, hb, List.filter_cons, ih hcount' hany']

theorem filter_upsertBy {α : Type} (key : α → String) (l : List α) (r : α)
    (hcount : l.countP (fun x => key x == key r) ≤ 1) :
    (upsertBy key l r).filter (fun x => key x == key r) = [r] := by
  unfold upsertBy
  by_cases h : l.any (fun x => key x == key r) = true
  · simp only [h, if_true]
    exact filter_replaceFirstBy key r l hcount h
  · have hnone : ∀ x ∈ l, ¬ (key x == key r) = true := by
      intro x hx hxk
      exact h (List.any_eq_true.mpr ⟨x, hx, hxk⟩)
    have hnil : l.filter (fun x => key x == key r) = [] :=
      List.filter_eq_nil_iff.mpr hnone
    simp [h, List.filter_append, hnil]

theorem countP_upsertBy_le {α : Type} (key : α → String) (l : List α) (r : α)
    (k : String) (hcount : l.countP (fun x => key x == k) ≤ 1) :
    (upsertBy key l r).countP (fun x => key x == k) ≤ 1 := by
  unfold upsertBy
  by_cases h : l.any (fun x => key x == key r) = true
  · simp only [h, if_true, countP_replaceFirstBy]
    exact hcount
  · have hnone : ∀ x ∈ l, ¬ (key x == key r) = true := by
      intro x hx hxk
      exact h (List.any_eq_true.mpr ⟨x, hx, hxk⟩)
    simp only [h, if_false, List.countP_append]
    by_cases hk : key r = k
    · have hz : l.countP (fun x => key x == k) = 0 := by
        apply List.countP_eq_zero.mpr
        intro x hx
        rw [← hk]
        exact hnone x hx
      simp [hz, List.countP_cons, hk]
    · simp [List.countP_cons, hk]
      omega

/-! ### Status-set preservation (claim C1) -/

/-- Every stored job status lies in the closed set of section 4.1. -/
def JobsValid (s : St) : Prop := ∀ j ∈ s.jobs, j.status ∈ validStatuses

theorem jobsValid_auditLog {s : St} {jid ty : String} {p : Payload}
    (h : JobsValid s) : JobsValid (auditLog s jid ty p) := h

theorem jobsValid_setJobStatus {s : St} {jobId : String} {st : Status}
    (h : JobsValid s) (hst : st ∈ validStatuses) :
    JobsValid (setJobStatus s jobId st) := by
  intro j hj
  rcases mem_updateFirst hj with h1 | ⟨a, _, rfl⟩
  · exact h j h1
  · simpa using hst

theorem jobsValid_setJobCleaned {s : St} {jobId : String} {cfp : Option String}
    (h : JobsValid s) : JobsValid (setJobCleaned s jobId cfp) := by
  intro j hj
  rcases mem_updateFirst hj with h1 | ⟨a, _, rfl⟩
  · exact h j h1
  · show Status.cleaned ∈ validStatuses
    decide

theorem jobsValid_foldl_ruleApplied {s : St} {jobId : String} {rs : List RuleApp}
    (h : JobsValid s) :
    JobsValid (rs.foldl (fun acc r => auditLog acc jobId "RULE_APPLIED"
      (.ruleInfo r)) s) := by
  rw [foldl_auditLog_ruleApplied]
  exact h

theorem jobsValid_runAnalysisStart {s : St} {jobId : String} (h : JobsValid s) :
    JobsValid (runAnalysisStart s jobId).1 := by
  unfold runAnalysisStart
  split
  · exact h
  · split
    · exact jobsValid_auditLog (jobsValid_setJobStatus h (by decide))
    · exact h

theorem jobsValid_runAnalysisFinish {s : St} {jobId : String}
    {resp : FetchOutcome AnalyzeData} (h : JobsValid s) :
    JobsValid (runAnalysisFinish s jobId resp).1 := by
  unfold runAnalysisFinish analysisCatch
  split
  · exact jobsValid_auditLog (jobsValid_setJobStatus h (by decide))
  · exact jobsValid_auditLog (jobsValid_setJobStatus h (by decide))
  · split
    · exact jobsValid_auditLog (jobsValid_setJobStatus h (by decide))
    · exact jobsValid_auditLog (jobsValid_setJobStatus h (by decide))

theorem jobsValid_runCleaningStart {s : St} {jobId : String} {opts : CleanOpts}
    (h : JobsValid s) : JobsValid (runCleaningStart s jobId opts).1 := by
  unfold runCleaningStart
  split
  · exact h
  · split
    · exact jobsValid_auditLog (jobsValid_setJobStatus h (by decide))
    · exact h

theorem jobsValid_runCleaningFinish {s : St} {jobId : String} {opts : CleanOpts}
    {resp : FetchOutcome CleanData} (h : JobsValid s) :
    JobsValid (runCleaningFinish s jobId opts resp).1 := by
  unfold runCleaningFinish cleaningCatch
  split
  · exact jobsValid_auditLog (jobsValid_setJobStatus h (by decide))
  · exact jobsValid_auditLog (jobsValid_setJobStatus h (by decide))
  · split
    · exact jobsValid_auditLog (jobsValid_setJobStatus h (by decide))
    · split
      · exact jobsValid_auditLog
          (jobsValid_setJobStatus (jobsValid_setJobCleaned h) (by decide))
      · split
        · exact jobsValid_auditLog (jobsValid_setJobStatus
            (jobsValid_foldl_ruleApplied (jobsValid_setJobCleaned h)) (by decide))
        · exact jobsValid_auditLog
            (jobsValid_foldl_ruleApplied (jobsValid_setJobCleaned h))

theorem jobsValid_postUpload {s : St} {user : UserCtx} {jobId : String}
    {file : Option UploadFile} (h : JobsValid s) :
    JobsValid (postUpload s user jobId file).1 := by
  unfold postUpload
  split
  · exact h
  · refine jobsValid_auditLog (jobsValid_auditLog ?_)
    intro j hj
    rcases List.mem_append.mp hj with h1 | h1
    · exact h j h1
    · have h2 : j.status = .starting := by
        simp at h1
        rw [h1]
      rw [h2]
      decide

theorem jobsValid_postAnalyze {s : St} {user : UserCtx} {jobId : String}
    (h : JobsValid s) : JobsValid (postAnalyze s user jobId).1 := by
  unfold postAnalyze
  split
  · exact h
  · exact jobsValid_auditLog h

theorem jobsValid_postClean {s : St} {user : UserCtx} {jobId : String}
    {mode rules : Option String} (h : JobsValid s) :
    JobsValid (postClean s user jobId mode rules).1 := by
  unfold postClean
  split
  · exact h
  · exact jobsValid_auditLog h

theorem jobsValid_deleteJobs {s : St} {user : UserCtx}
    {job_ids : Option (List String)} (h : JobsValid s) :
    JobsValid (deleteJobs s user job_ids).1 := by
  unfold deleteJobs
  split
  · exact h
  · split
    · exact h
    · dsimp only
      split
      · exact h
      · rw [foldl_auditLog_jobDeleted]
        intro j hj
        exact h j (List.mem_filter.mp hj).1

/-! ### Audit-event classification (claim C7) -/

/-- Relative audit soundness: every audit row of the second state is either
inherited from the first state or classified by the closed event set. -/
def AuditOk (s t : St) : Prop :=
  ∀ e ∈ t.audit, e ∈ s.audit ∨ (eventClass e.event_type).isSome = true

theorem auditOk_refl (s : St) : AuditOk s s := fun _ he => Or.inl he

theorem auditOk_trans {s t u : St} (h1 : AuditOk s t) (h2 : AuditOk t u) :
    AuditOk s u := by
  intro e he
  rcases h2 e he with h | h
  · exact h1 e h
  · exact Or.inr h

theorem auditOk_of_audit_eq {s t : St} (h : t.audit = s.audit) : AuditOk s t :=
  fun _ he => Or.inl (h ▸ he)

theorem auditOk_auditLog {s : St} {jid ty : String} {p : Payload}
    (hty : (eventClass ty).isSome = true) : AuditOk s (auditLog s jid ty p) := by
  intro e he
  rcases List.mem_append.mp he with h | h
  · exact Or.inl h
  · have h2 : e = { job_id := some jid, event_type := ty, payload := p } := by
      simpa using h
    rw [h2]
    exact Or.inr hty

theorem auditOk_foldl_ruleApplied {s : St} {jobId : String} {rs : List RuleApp} :
    AuditOk s (rs.foldl (fun acc r => auditLog acc jobId "RULE_APPLIED"
      (.ruleInfo r)) s) := by
  rw [foldl_auditLog_ruleApplied]
  intro e he
  rcases List.mem_append.mp he with h | h
  · exact Or.inl h
  · rcases List.mem_map.mp h with ⟨r, _, h2⟩
    rw [← h2]
    exact Or.inr rfl

theorem auditOk_foldl_jobDeleted {s : St} {ids : List String} {uid : String} :
    AuditOk s (ids.foldl (fun acc i => auditLog acc i "JOB_DELETED"
      (.deletedBy uid)) s) := by
  rw [foldl_auditLog_jobDeleted]
  intro e he
  rcases List.mem_append.mp he with h | h
  · exact Or.inl h
  · rcases List.mem_map.mp h with ⟨i, _, h2⟩
    rw [← h2]
    exact Or.inr rfl

theorem auditOk_runAnalysisStart {s : St} {jobId : String} :
    AuditOk s (runAnalysisStart s jobId).1 := by
  unfold runAnalysisStart
  split
  · exact auditOk_refl s
  · split
    · exact auditOk_trans (auditOk_of_audit_eq rfl) (auditOk_auditLog (by decide))
    · exact auditOk_refl s

theorem auditOk_runAnalysisFinish {s : St} {jobId : String}
    {resp : FetchOutcome AnalyzeData} :
    AuditOk s (runAnalysisFinish s jobId resp).1 := by
  unfold runAnalysisFinish analysisCatch
  split
  · exact auditOk_trans (auditOk_of_audit_eq rfl) (auditOk_auditLog (by decide))
  · exact auditOk_trans (auditOk_of_audit_eq rfl) (auditOk_auditLog (by decide))
  · split
    · exact auditOk_trans (auditOk_of_audit_eq rfl) (auditOk_auditLog (by decide))
    · exact auditOk_trans (auditOk_of_audit_eq rfl) (auditOk_auditLog (by decide))

theorem auditOk_runCleaningStart {s : St} {jobId : String} {opts : CleanOpts} :
    AuditOk s (runCleaningStart s jobId opts).1 := by
  unfold runCleaningStart
  split
  · exact auditOk_refl s
  · split
    · exact auditOk_trans (auditOk_of_audit_eq rfl) (auditOk_auditLog (by decide))
    · exact auditOk_refl s

theorem auditOk_cleaningCatch {t : St} {jid msg : String} :
    AuditOk t (cleaningCatch t jid msg) := by
  unfold cleaningCatch
  refine auditOk_trans ?_ (auditOk_auditLog (by decide))
  exact auditOk_of_audit_eq rfl

theorem auditOk_runCleaningFinish {s : St} {jobId : String} {opts : CleanOpts}
    {resp : FetchOutcome CleanData} :
    AuditOk s (runCleaningFinish s jobId opts resp).1 := by
  unfold runCleaningFinish
  dsimp only
  split
  · exact auditOk_cleaningCatch
  · exact auditOk_cleaningCatch
  · split
    · exact auditOk_cleaningCatch
    · split
      · refine auditOk_trans ?_ auditOk_cleaningCatch
        exact auditOk_of_audit_eq rfl
      · split
        · refine auditOk_trans ?_ auditOk_cleaningCatch
          refine auditOk_trans ?_ auditOk_foldl_ruleApplied
          exact auditOk_of_audit_eq rfl
        · refine auditOk_trans ?_ (auditOk_auditLog (by decide))
          refine auditOk_trans ?_ auditOk_foldl_ruleApplied
          exact auditOk_of_audit_eq rfl

theorem auditOk_postUpload {s : St} {user : UserCtx} {jobId : String}
    {file : Option UploadFile} : AuditOk s (postUpload s user jobId file).1 := by
  unfold postUpload
  split
  · exact auditOk_refl s
  · exact auditOk_trans (auditOk_trans (auditOk_of_audit_eq rfl)
      (auditOk_auditLog (by decide))) (auditOk_auditLog (by decide))

theorem auditOk_postAnalyze {s : St} {user : UserCtx} {jobId : String} :
    AuditOk s (postAnalyze s user jobId).1 := by
  unfold postAnalyze
  split
  · exact auditOk_refl s
  · exact auditOk_auditLog (by decide)

theorem auditOk_postClean {s : St} {user : UserCtx} {jobId : String}
    {mode rules : Option String} :
    AuditOk s (postClean s user jobId mode rules).1 := by
  unfold postClean
  split
  · exact auditOk_refl s
  · exact auditOk_auditLog (by decide)

theorem auditOk_deleteJobs {s : St} {user : UserCtx}
    {job_ids : Option (List String)} : AuditOk s (deleteJobs s user job_ids).1 := by
  unfold deleteJobs
  split
  · exact auditOk_refl s
  · split
    · exact auditOk_refl s
    · dsimp only
      split
      · exact auditOk_refl s
      · exact auditOk_trans (auditOk_of_audit_eq rfl) auditOk_foldl_jobDeleted

/-! ### Claim C1 -/

/-- Claim C1 counterexample: the cleaning delegation writes status
`cleaning` to a job whose current status is `starting`, but `starting` is
not a from-state of the cleaning-delegated edge of the section 4.1 table —
the services guard no write by the current status. -/
theorem c1_counterexample :
    statusOf c1St "j1" = some Status.starting
    ∧ statusOf (runCleaningStart c1St "j1"
        { mode := some "auto", rules := some "" }).1 "j1" = some Status.cleaning
    ∧ Status.starting ∉ specFromStates SpecEvent.cleaningDelegated := by
  decide

/-- Claim C1 (amended): status writes are unconditional (no from-state
guard, last-write-wins), but every operation of the system preserves the
invariant that each stored job status lies in the closed set of statuses
reachable via the section 4.1 table; in particular `unknown` is never
stored. -/
theorem c1_status_in_table_range (s : St) (op : Op)
    (h : ∀ j ∈ s.jobs, j.status ∈ validStatuses) :
    ∀ j ∈ (step s op).jobs, j.status ∈ validStatuses := by
  cases op with
  | upload user jobId file => exact jobsValid_postUpload h
  | analyzeRoute user jobId => exact jobsValid_postAnalyze h
  | cleanRoute user jobId mode rules => exact jobsValid_postClean h
  | analysisTaskStart jobId => exact jobsValid_runAnalysisStart h
  | analysisTaskFinish jobId resp => exact jobsValid_runAnalysisFinish h
  | cleaningTaskStart jobId opts => exact jobsValid_runCleaningStart h
  | cleaningTaskFinish jobId opts resp => exact jobsValid_runCleaningFinish h
  | deleteJobsOp user job_ids => exact jobsValid_deleteJobs h

/-- Witness for the amended C1 theorem at a concrete input: delegating
analysis on a `starting` job stores status `running`, a table value. -/
theorem c1_status_witness :
    ({ c1Job with status := Status.running } : Job).status ∈ validStatuses :=
  c1_status_in_table_range c1St (.analysisTaskStart "j1") (by decide)
    { c1Job with status := Status.running } (by decide)

/-! ### Claim C7 -/

/-- Claim C7: every audit row appended by any operation of the system has
an event type classified by the closed set of spec categories: JOB_CREATED
(job created), FILE_UPLOADED (file received), ANALYSIS_ENQUEUED and
CLEANING_ENQUEUED (operation enqueued), ANALYSIS_STARTED and
CLEANING_STARTED (operation started), RULE_APPLIED (rule applied),
ANALYSIS_COMPLETED and CLEANING_COMPLETED (operation completed),
ANALYSIS_FAILED and ERROR (operation failed), JOB_DELETED (job deleted). -/
theorem c7_audit_event_types_closed (s : St) (op : Op) :
    ∀ e ∈ (step s op).audit, e ∈ s.audit ∨ (eventClass e.event_type).isSome = true := by
  cases op with
  | upload user jobId file => exact auditOk_postUpload
  | analyzeRoute user jobId => exact auditOk_postAnalyze
  | cleanRoute user jobId mode rules => exact auditOk_postClean
  | analysisTaskStart jobId => exact auditOk_runAnalysisStart
  | analysisTaskFinish jobId resp => exact auditOk_runAnalysisFinish
  | cleaningTaskStart jobId opts => exact auditOk_runCleaningStart
  | cleaningTaskFinish jobId opts resp => exact auditOk_runCleaningFinish
  | deleteJobsOp user job_ids => exact auditOk_deleteJobs

/-- Witness for C7 at a concrete input: the JOB_CREATED row appended by an
upload into an empty log is classified. -/
theorem c7_audit_witness : (eventClass "JOB_CREATED").isSome = true := by
  have h := c7_audit_event_types_closed c7St (.upload c7User "j1" (some c7File))
    c7Evt (by decide)
  rcases h with h | h
  · exact absurd h (by decide)
  · exact h

/-! ### Delegation composition lemmas -/

theorem findById_setJobStatus (s : St) (jobId : String) (st : Status) :
    findById (setJobStatus s jobId st).jobs jobId
      = (findById s.jobs jobId).map (fun j => { j with status := st }) := by
  unfold setJobStatus
  exact findById_updateFirst s.jobs jobId _ (fun j => rfl)

theorem statusOf_auditLog (s : St) (jid ty : String) (p : Payload) (q : String) :
    statusOf (auditLog s jid ty p) q = statusOf s q := rfl

theorem statusOf_setJobStatus_self {s : St} {jobId : String} {st : Status}
    (h : (findById s.jobs jobId).isSome = true) :
    statusOf (setJobStatus s jobId st) jobId = some st := by
  unfold statusOf
  rw [findById_setJobStatus]
  rcases hf : findById s.jobs jobId with _ | j
  · rw [hf] at h
    simp at h
  · rfl

theorem findById_afterStart {s : St} {jobId : String} {job : Job} {st : Status}
    {ty : String} {p : Payload}
    (hfind : findById s.jobs jobId = some job) :
    findById (auditLog (setJobStatus s jobId st) jobId ty p).jobs jobId
      = some { job with status := st } := by
  show findById (setJobStatus s jobId st).jobs jobId = _
  rw [findById_setJobStatus, hfind]
  rfl

theorem runAnalysis_eq_finish {s : St} {jobId : String} {job : Job}
    {resp : FetchOutcome AnalyzeData}
    (hfind : findById s.jobs jobId = some job)
    (hfp : job.file_path.isSome = true) :
    runAnalysis s jobId resp
      = runAnalysisFinish (auditLog (setJobStatus s jobId .running) jobId
          "ANALYSIS_STARTED" .empty) jobId resp := by
  unfold runAnalysis runAnalysisStart
  rw [hfind]
  simp [hfp]

theorem runCleaning_eq_finish {s : St} {jobId : String} {job : Job}
    {opts : CleanOpts} {resp : FetchOutcome CleanData}
    (hfind : findById s.jobs jobId = some job)
    (hfp : job.file_path.isSome = true) :
    runCleaning s jobId opts resp
      = runCleaningFinish (auditLog (setJobStatus s jobId .cleaning) jobId
          "CLEANING_STARTED" (.modeInfo opts.mode)) jobId opts resp := by
  unfold runCleaning runCleaningStart
  rw [hfind]
  simp [hfp]

theorem runAnalysis_failed_eq {s : St} {jobId : String} {job : Job}
    {ra : FetchOutcome AnalyzeData}
    (hfind : findById s.jobs jobId = some job)
    (hfp : job.file_path.isSome = true)
    (hra : analysisWorkerFailed ra = true) :
    (runAnalysis s jobId ra).1
      = analysisCatch (auditLog (setJobStatus s jobId .running) jobId
          "ANALYSIS_STARTED" .empty) jobId (analysisFailureMessage ra) := by
  rw [runAnalysis_eq_finish hfind hfp]
  cases ra with
  | timeout => rfl
  | httpError c => rfl
  | ok d =>
    have hd : d.status = some "failed" := by
      simpa [analysisWorkerFailed] using hra
    simp [runAnalysisFinish, hd, analysisFailureMessage]

theorem runCleaning_failed_eq {s : St} {jobId : String} {job : Job}
    {opts : CleanOpts} {rc : FetchOutcome CleanData}
    (hfind : findById s.jobs jobId = some job)
    (hfp : job.file_path.isSome = true)
    (hrc : cleaningWorkerFailed rc = true) :
    (runCleaning s jobId opts rc).1
      = cleaningCatch (auditLog (setJobStatus s jobId .cleaning) jobId
          "CLEANING_STARTED" (.modeInfo opts.mode)) jobId
          (cleaningFailureMessage rc) := by
  rw [runCleaning_eq_finish hfind hfp]
  cases rc with
  | timeout => rfl
  | httpError c => rfl
  | ok d =>
    have hd : d.status = some "failed" := by
      simpa [cleaningWorkerFailed] using hrc
    simp [runCleaningFinish, hd, cleaningFailureMessage]

/-! ### Claim C3 -/

/-- Claim C3: a delegation whose worker call times out, hits a transport
error, or reports logical failure transitions the job to the section 4.1
failure/fallback state — `failed` for analysis, `completed` (never
`failed`) for cleaning — and appends a failure audit event whose payload
carries the error classification (the abort message for a timeout); the
job is not left in `running` or `cleaning`. -/
theorem c3_failure_fallback (s : St) (jobId : String) (job : Job)
    (opts : CleanOpts) (ra : FetchOutcome AnalyzeData) (rc : FetchOutcome CleanData)
    (hfind : findById s.jobs jobId = some job)
    (hfp : job.file_path.isSome = true)
    (hra : analysisWorkerFailed ra = true)
    (hrc : cleaningWorkerFailed rc = true) :
    (statusOf (runAnalysis s jobId ra).1 jobId = some Status.failed
      ∧ (runAnalysis s jobId ra).1.audit = s.audit ++
          [{ job_id := some jobId, event_type := "ANALYSIS_STARTED",
             payload := .empty },
           { job_id := some jobId, event_type := "ANALYSIS_FAILED",
             payload := .errInfo (analysisFailureMessage ra) }]
      ∧ statusOf (runAnalysis s jobId ra).1 jobId ≠ some Status.running
      ∧ statusOf (runAnalysis s jobId ra).1 jobId ≠ some Status.cleaning)
    ∧ (statusOf (runCleaning s jobId opts rc).1 jobId = some Status.completed
      ∧ (runCleaning s jobId opts rc).1.audit = s.audit ++
          [{ job_id := some jobId, event_type := "CLEANING_STARTED",
             payload := .modeInfo opts.mode },
           { job_id := some jobId, event_type := "ERROR",
             payload := .cleanErr "cleaning" (cleaningFailureMessage rc) }]
      ∧ statusOf (runCleaning s jobId opts rc).1 jobId ≠ some Status.running
      ∧ statusOf (runCleaning s jobId opts rc).1 jobId ≠ some Status.cleaning)
    ∧ (ra = .timeout → analysisFailureMessage ra = abortErrorMessage)
    ∧ (rc = .timeout → cleaningFailureMessage rc = abortErrorMessage) := by
  have hA := runAnalysis_failed_eq hfind hfp hra
  have hC := @runCleaning_failed_eq s jobId job opts rc hfind hfp hrc
  have hsA : statusOf (runAnalysis s jobId ra).1 jobId = some Status.failed := by
    rw [hA]
    unfold analysisCatch
    rw [statusOf_auditLog]
    apply statusOf_setJobStatus_self
    rw [findById_afterStart hfind]
    rfl
  have hsC : statusOf (runCleaning s jobId opts rc).1 jobId
      = some Status.completed := by
    rw [hC]
    unfold cleaningCatch
    rw [statusOf_auditLog]
    apply statusOf_setJobStatus_self
    rw [findById_afterStart hfind]
    rfl
  have haA : (runAnalysis s jobId ra).1.audit = s.audit ++
      [{ job_id := some jobId, event_type := "ANALYSIS_STARTED",
         payload := .empty },
       { job_id := some jobId, event_type := "ANALYSIS_FAILED",
         payload := .errInfo (analysisFailureMessage ra) }] := by
    rw [hA]
    simp [analysisCatch, auditLog, setJobStatus]
  have haC : (runCleaning s jobId opts rc).1.audit = s.audit ++
      [{ job_id := some jobId, event_type := "CLEANING_STARTED",
         payload := .modeInfo opts.mode },
       { job_id := some jobId, event_type := "ERROR",
         payload := .cleanErr "cleaning" (cleaningFailureMessage rc) }] := by
    rw [hC]
    simp [cleaningCatch, auditLog, setJobStatus]
  refine ⟨⟨hsA, haA, ?_, ?_⟩, ⟨hsC, haC, ?_, ?_⟩, ?_, ?_⟩
  · rw [hsA]
    simp
  · rw [hsA]
    simp
  · rw [hsC]
    simp
  · rw [hsC]
    simp
  · intro h
    rw [h]
    rfl
  · intro h
    rw [h]
    rfl

/-- Witness for C3 at a concrete input: a timed-out analysis and a
timed-out cleaning delegation on a fresh job. -/
theorem c3_failure_witness :
    statusOf (runAnalysis c1St "j1" c3Ra).1 "j1" = some Status.failed
    ∧ statusOf (runCleaning c1St "j1" { mode := some "auto", rules := some "" }
        c3Rc).1 "j1" = some Status.completed := by
  have h := c3_failure_fallback c1St "j1" c1Job
    { mode := some "auto", rules := some "" } c3Ra c3Rc
    (by decide) (by decide) (by decide) (by decide)
  exact ⟨h.1.1, h.2.1.1⟩

/-! ### Claim C4 -/

theorem countP_map_eq_zero {α β : Type} (f : α → β) (p : β → Bool) (l : List α)
    (h : ∀ a, p (f a) = false) : (l.map f).countP p = 0 := by
  rw [List.countP_map]
  apply List.countP_eq_zero.mpr
  intro a _
  simp [Function.comp, h a]

theorem countP_map_eq_length {α β : Type} (f : α → β) (p : β → Bool) (l : List α)
    (h : ∀ a, p (f a) = true) : (l.map f).countP p = l.length := by
  rw [List.countP_map]
  apply List.countP_eq_length.mpr
  intro a _
  simp [Function.comp, h a]

theorem runAnalysis_success_audit {s : St} {jobId : String} {job : Job}
    {da : AnalyzeData}
    (hfind : findById s.jobs jobId = some job)
    (hfp : job.file_path.isSome = true)
    (hda : ¬ da.status = some "failed") :
    (runAnalysis s jobId (.ok da)).1.audit = s.audit ++
      [{ job_id := some jobId, event_type := "ANALYSIS_STARTED",
         payload := .empty },
       { job_id := some jobId, event_type := "ANALYSIS_COMPLETED",
         payload := .analysisDone (resultAnalysisType da.result)
           (resultDurationMs da.result) }] := by
  rw [runAnalysis_eq_finish hfind hfp]
  simp [runAnalysisFinish, hda, auditLog, setJobStatus]

theorem runCleaning_success_audit {s : St} {jobId : String} {job : Job}
    {opts : CleanOpts} {dc : CleanData} {rs : List RuleApp} {sm : Summary}
    (hfind : findById s.jobs jobId = some job)
    (hfp : job.file_path.isSome = true)
    (hdc : ¬ dc.status = some "failed")
    (hrs : dc.rules_applied = some rs)
    (hsm : dc.summary = some sm) :
    (runCleaning s jobId opts (.ok dc)).1.audit = s.audit ++
      ({ job_id := some jobId, event_type := "CLEANING_STARTED",
         payload := .modeInfo opts.mode } ::
        (rs.map (fun r => { job_id := some jobId, event_type := "RULE_APPLIED",
                            payload := .ruleInfo r }) ++
         [{ job_id := some jobId, event_type := "CLEANING_COMPLETED",
            payload := .cleaningDone dc.cleaned_file_path sm.rows_removed }])) := by
  rw [runCleaning_eq_finish hfind hfp]
  simp only [runCleaningFinish, hrs, hsm, if_neg hdc]
  rw [foldl_auditLog_ruleApplied]
  simp [auditLog, setJobStatus, setJobCleaned]

/-- Claim C4: a successful delegation appends, in order, exactly one
operation-started event, then (for cleaning) one rule-applied event per
entry of the worker's rule list, then exactly one terminal event: the
appended suffix is literally the started event consed onto the mapped rule
events followed by the completion event, and the suffix counts are one
started, one terminal, and (list length) rule events. -/
theorem c4_success_audit_events (s : St) (jobId : String) (job : Job)
    (opts : CleanOpts) (da : AnalyzeData) (dc : CleanData)
    (rs : List RuleApp) (sm : Summary)
    (hfind : findById s.jobs jobId = some job)
    (hfp : job.file_path.isSome = true)
    (hda : ¬ da.status = some "failed")
    (hdc : ¬ dc.status = some "failed")
    (hrs : dc.rules_applied = some rs)
    (hsm : dc.summary = some sm) :
    ((runAnalysis s jobId (.ok da)).1.audit = s.audit ++
        [{ job_id := some jobId, event_type := "ANALYSIS_STARTED",
           payload := .empty },
         { job_id := some jobId, event_type := "ANALYSIS_COMPLETED",
           payload := .analysisDone (resultAnalysisType da.result)
             (resultDurationMs da.result) }]
      ∧ ([{ job_id := some jobId, event_type := "ANALYSIS_STARTED",
            payload := Payload.empty },
          { job_id := some jobId, event_type := "ANALYSIS_COMPLETED",
            payload := .analysisDone (resultAnalysisType da.result)
              (resultDurationMs da.result) }] : List AuditEvent).countP
            isStartedEvent = 1
      ∧ ([{ job_id := some jobId, event_type := "ANALYSIS_STARTED",
            payload := Payload.empty },
          { job_id := some jobId, event_type := "ANALYSIS_COMPLETED",
            payload := .analysisDone (resultAnalysisType da.result)
              (resultDurationMs da.result) }] : List AuditEvent).countP
            isTerminalEvent = 1
      ∧ ([{ job_id := some jobId, event_type := "ANALYSIS_STARTED",
            payload := Payload.empty },
          { job_id := some jobId, event_type := "ANALYSIS_COMPLETED",
            payload := .analysisDone (resultAnalysisType da.result)
              (resultDurationMs da.result) }] : List AuditEvent).countP
            isRuleEvent = 0)
    ∧ ((runCleaning s jobId opts (.ok dc)).1.audit = s.audit ++
        ({ job_id := some jobId, event_type := "CLEANING_STARTED",
           payload := .modeInfo opts.mode } ::
          (rs.map (fun r => { job_id := some jobId,
                              event_type := "RULE_APPLIED",
                              payload := .ruleInfo r }) ++
           [{ job_id := some jobId, event_type := "CLEANING_COMPLETED",
              payload := .cleaningDone dc.cleaned_file_path
                sm.rows_removed }]))
      ∧ ({ job_id := some jobId, event_type := "CLEANING_STARTED",
           payload := Payload.modeInfo opts.mode } ::
          (rs.map (fun r => { job_id := some jobId,
                              event_type := "RULE_APPLIED",
                              payload := .ruleInfo r }) ++
           [{ job_id := some jobId, event_type := "CLEANING_COMPLETED",
              payload := .cleaningDone dc.cleaned_file_path
                sm.rows_removed }]) : List AuditEvent).countP
            isStartedEvent = 1
      ∧ ({ job_id := some jobId, event_type := "CLEANING_STARTED",
           payload := Payload.modeInfo opts.mode } ::
          (rs.map (fun r => { job_id := some jobId,
                              event_type := "RULE_APPLIED",
                              payload := .ruleInfo r }) ++
           [{ job_id := some jobId, event_type := "CLEANING_COMPLETED",
              payload := .cleaningDone dc.cleaned_file_path
                sm.rows_removed }]) : List AuditEvent).countP
            isTerminalEvent = 1
      ∧ ({ job_id := some jobId, event_type := "CLEANING_STARTED",
           payload := Payload.modeInfo opts.mode } ::
          (rs.map (fun r => { job_id := some jobId,
                              event_type := "RULE_APPLIED",
                              payload := .ruleInfo r }) ++
           [{ job_id := some jobId, event_type := "CLEANING_COMPLETED",
              payload := .cleaningDone dc.cleaned_file_path
                sm.rows_removed }]) : List AuditEvent).countP
            isRuleEvent = rs.length) := by
  have hz1 : (rs.map (fun r => ({ job_id := some jobId,
                                  event_type := "RULE_APPLIED",
                                  payload := .ruleInfo r } : AuditEvent))).countP
      isStartedEvent = 0 :=
    countP_map_eq_zero _ _ _ (fun r => rfl)
  have hz2 : (rs.map (fun r => ({ job_id := some jobId,
                                  event_type := "RULE_APPLIED",
                                  payload := .ruleInfo r } : AuditEvent))).countP
      isTerminalEvent = 0 :=
    countP_map_eq_zero _ _ _ (fun r => rfl)
  have hz3 : (rs.map (fun r => ({ job_id := some jobId,
                                  event_type := "RULE_APPLIED",
                                  payload := .ruleInfo r } : AuditEvent))).countP
      isRuleEvent = rs.length :=
    countP_map_eq_length _ _ _ (fun r => rfl)
  refine ⟨⟨runAnalysis_success_audit hfind hfp hda, ?_, ?_, ?_⟩,
    ⟨runCleaning_success_audit hfind hfp hdc hrs hsm, ?_, ?_, ?_⟩⟩
  · simp [List.countP_cons, isStartedEvent, isTerminalEvent, isRuleEvent]
  · simp [List.countP_cons, isStartedEvent, isTerminalEvent, isRuleEvent]
  · simp [List.countP_cons, isStartedEvent, isTerminalEvent, isRuleEvent]
  · simp [List.countP_cons, List.countP_append, hz1, isStartedEvent]
  · simp [List.countP_cons, List.countP_append, hz2, isTerminalEvent]
  · simp [List.countP_cons, List.countP_append, hz3, isRuleEvent]

/-- Witness for C4 at a concrete input: a successful analysis and a
successful cleaning (one applied rule) on a fresh job. -/
theorem c4_success_witness :
    (runAnalysis c1St "j1" (.ok c4Da)).1.audit = c1St.audit ++
      [{ job_id := some "j1", event_type := "ANALYSIS_STARTED",
         payload := .empty },
       { job_id := some "j1", event_type := "ANALYSIS_COMPLETED",
         payload := .analysisDone (resultAnalysisType c4Da.result)
           (resultDurationMs c4Da.result) }]
    ∧ (runCleaning c1St "j1" c4Opts (.ok c4Dc)).1.audit = c1St.audit ++
      ({ job_id := some "j1", event_type := "CLEANING_STARTED",
         payload := .modeInfo c4Opts.mode } ::
        ((["r1"] : List RuleApp).map (fun r =>
            { job_id := some "j1", event_type := "RULE_APPLIED",
              payload := .ruleInfo r }) ++
         [{ job_id := some "j1", event_type := "CLEANING_COMPLETED",
            payload := .cleaningDone c4Dc.cleaned_file_path
              c4Sm.rows_removed }])) := by
  have h := c4_success_audit_events c1St "j1" c1Job c4Opts c4Da c4Dc ["r1"] c4Sm
    (by decide) (by decide) (by decide) (by decide) (by decide) (by decide)
  exact ⟨h.1.1, h.2.1⟩

/-! ### Claim C2 -/

theorem findById_setJobCleaned (s : St) (jobId : String) (cfp : Option String) :
    findById (setJobCleaned s jobId cfp).jobs jobId
      = (findById s.jobs jobId).map (fun j => { j with
          cleaned_file_path := match cfp with
            | some p => some p
            | none => j.cleaned_file_path,
          status := .cleaned }) := by
  unfold setJobCleaned
  exact findById_updateFirst _ _ _ (fun j => rfl)

theorem statusOf_cleaningCatch {t : St} {jobId msg : String}
    (h : (findById t.jobs jobId).isSome = true) :
    statusOf (cleaningCatch t jobId msg) jobId = some Status.completed := by
  unfold cleaningCatch
  rw [statusOf_auditLog]
  exact statusOf_setJobStatus_self h

theorem runAnalysis_success_eq {s : St} {jobId : String} {job : Job}
    {da : AnalyzeData}
    (hfind : findById s.jobs jobId = some job)
    (hfp : job.file_path.isSome = true)
    (hda : ¬ da.status = some "failed") :
    (runAnalysis s jobId (.ok da)).1
      = auditLog (setJobStatus
          { (auditLog (setJobStatus s jobId .running) jobId "ANALYSIS_STARTED"
              .empty) with
            analysisResults := upsertBy AnalysisRecord.job_id s.analysisResults
              { job_id := jobId, result := da.result,
                analysis_type := (resultAnalysisType da.result).getD "in-memory" } }
          jobId .completed) jobId "ANALYSIS_COMPLETED"
          (.analysisDone (resultAnalysisType da.result)
            (resultDurationMs da.result)) := by
  rw [runAnalysis_eq_finish hfind hfp]
  simp only [runAnalysisFinish, if_neg hda]
  rfl

theorem runCleaning_norules_eq {s : St} {jobId : String} {job : Job}
    {opts : CleanOpts} {dc : CleanData}
    (hfind : findById s.jobs jobId = some job)
    (hfp : job.file_path.isSome = true)
    (hdc : ¬ dc.status = some "failed")
    (hrules : dc.rules_applied = none) :
    runCleaning s jobId opts (.ok dc)
      = (cleaningCatch (setJobCleaned
          { (auditLog (setJobStatus s jobId .cleaning) jobId "CLEANING_STARTED"
              (.modeInfo opts.mode)) with
            cleaningResults := upsertBy CleaningRecord.job_id s.cleaningResults
              { job_id := jobId, mode := (firstSome dc.mode opts.mode).getD "auto",
                rules_applied := none, summary := dc.summary } }
          jobId dc.cleaned_file_path) jobId rulesNotIterableMessage,
        Except.error rulesNotIterableMessage) := by
  rw [runCleaning_eq_finish hfind hfp]
  simp only [runCleaningFinish, if_neg hdc, hrules]
  rfl

/-- Claim C2 counterexample: a 2xx analysis success body with no result
blob is accepted — the (empty) result is upserted, the job is marked
`completed`, and the completion (not failure) audit events are appended. -/
theorem c2_counterexample :
    c2Da.result = none
    ∧ statusOf (runAnalysis c1St "j1" (.ok c2Da)).1 "j1" = some Status.completed
    ∧ ((runAnalysis c1St "j1" (.ok c2Da)).1.analysisResults.any
        (fun r => r.job_id == "j1")) = true
    ∧ (runAnalysis c1St "j1" (.ok c2Da)).1.audit.map (fun e => e.event_type)
        = ["ANALYSIS_STARTED", "ANALYSIS_COMPLETED"] := by
  decide

/-- Claim C2 (amended): the services perform no field validation on a 2xx
logical-success response.  For analysis, a missing result blob is accepted:
an empty result record is stored and the job completes normally.  For
cleaning, a missing rule-application list diverts to the failure path only
through a runtime TypeError raised AFTER the cleaning result has been
upserted and the job already marked `cleaned` with the (possibly absent)
cleaned path; the catch then moves the job to `completed`. -/
theorem c2_no_success_validation (s : St) (jobId : String) (job : Job)
    (opts : CleanOpts) (da : AnalyzeData) (dc : CleanData)
    (hfind : findById s.jobs jobId = some job)
    (hfp : job.file_path.isSome = true)
    (hda : ¬ da.status = some "failed") (hdares : da.result = none)
    (hdc : ¬ dc.status = some "failed") (hrules : dc.rules_applied = none) :
    statusOf (runAnalysis s jobId (.ok da)).1 jobId = some Status.completed
    ∧ (runAnalysis s jobId (.ok da)).1.analysisResults
        = upsertBy AnalysisRecord.job_id s.analysisResults
            { job_id := jobId, result := none, analysis_type := "in-memory" }
    ∧ (runAnalysis s jobId (.ok da)).1.audit = s.audit ++
        [{ job_id := some jobId, event_type := "ANALYSIS_STARTED",
           payload := .empty },
         { job_id := some jobId, event_type := "ANALYSIS_COMPLETED",
           payload := .analysisDone none none }]
    ∧ (runCleaning s jobId opts (.ok dc)).1.cleaningResults
        = upsertBy CleaningRecord.job_id s.cleaningResults
            { job_id := jobId, mode := (firstSome dc.mode opts.mode).getD "auto",
              rules_applied := none, summary := dc.summary }
    ∧ statusOf (runCleaning s jobId opts (.ok dc)).1 jobId
        = some Status.completed
    ∧ (runCleaning s jobId opts (.ok dc)).2
        = Except.error rulesNotIterableMessage := by
  have hAeq := runAnalysis_success_eq hfind hfp hda
  have hCeq := @runCleaning_norules_eq s jobId job opts dc hfind hfp hdc hrules
  refine ⟨?_, ?_, ?_, ?_, ?_, ?_⟩
  · rw [hAeq]
    rw [statusOf_auditLog]
    apply statusOf_setJobStatus_self
    show (findById (setJobStatus s jobId Status.running).jobs jobId).isSome = true
    rw [findById_setJobStatus, hfind]
    rfl
  · rw [hAeq, hdares]
    rfl
  · rw [runAnalysis_success_audit hfind hfp hda, hdares]
    rfl
  · rw [hCeq]
    rfl
  · rw [hCeq]
    apply statusOf_cleaningCatch
    show (findById (setJobCleaned (setJobStatus s jobId Status.cleaning) jobId
      dc.cleaned_file_path).jobs jobId).isSome = true
    rw [findById_setJobCleaned, findById_setJobStatus, hfind]
    rfl
  · rw [hCeq]

/-- Witness for the amended C2 theorem at a concrete input. -/
theorem c2_no_validation_witness :
    statusOf (runAnalysis c1St "j1" (.ok c2Da)).1 "j1" = some Status.completed
    ∧ statusOf (runCleaning c1St "j1" c2Opts (.ok c2Dc)).1 "j1"
        = some Status.completed := by
  have h := c2_no_success_validation c1St "j1" c1Job c2Opts c2Da c2Dc
    (by decide) (by decide) (by decide) (by decide) (by decide) (by decide)
  exact ⟨h.1, h.2.2.2.2.1⟩

/-! ### Claim C5 -/

theorem findOwnedJob_none_of_other {s : St} {u : UserCtx} {jobId : String}
    {job : Job} (hrole : u.role ≠ "admin")
    (hfind : findById s.jobs jobId = some job)
    (hown : job.user_id ≠ u.id) : findOwnedJob s jobId u = none := by
  unfold findOwnedJob
  rw [hfind]
  simp [hrole, hown]

theorem findOwnedJob_removeJob_none (s : St) (u : UserCtx) (jobId : String) :
    findOwnedJob (removeJob s jobId) jobId u = none := by
  unfold findOwnedJob
  rw [show findById (removeJob s jobId).jobs jobId = none from
    findById_filter_self s.jobs jobId]

/-- Claim C5: for a non-admin subject and a job owned by someone else, every
job-scoped endpoint responds exactly as it does when the job does not exist
at all — 404 bodies (status 200 with `unknown` for the status endpoint),
never a 403 — and the synchronous routes leave the state unchanged. -/
theorem c5_nonowner_indistinguishable (s : St) (u : UserCtx) (jobId : String)
    (job : Job) (mode rules : Option String)
    (hrole : u.role ≠ "admin")
    (hfind : findById s.jobs jobId = some job)
    (hown : job.user_id ≠ u.id) :
    (postAnalyze s u jobId).2 = (postAnalyze (removeJob s jobId) u jobId).2
    ∧ (postAnalyze s u jobId).1 = s
    ∧ (postAnalyze s u jobId).2.code = 404
    ∧ getStatus s u jobId = getStatus (removeJob s jobId) u jobId
    ∧ getStatus s u jobId = ⟨200, .statusMsg "unknown"⟩
    ∧ getResults s u jobId = getResults (removeJob s jobId) u jobId
    ∧ getResults s u jobId = ⟨404, .detailMsg "Results not found"⟩
    ∧ getResultsExport s u jobId = getResultsExport (removeJob s jobId) u jobId
    ∧ getResultsExport s u jobId = ⟨404, .detailMsg "Results not found"⟩
    ∧ (postClean s u jobId mode rules).2
        = (postClean (removeJob s jobId) u jobId mode rules).2
    ∧ (postClean s u jobId mode rules).1 = s
    ∧ (postClean s u jobId mode rules).2.code = 404
    ∧ getCleaned s u jobId = getCleaned (removeJob s jobId) u jobId
    ∧ getCleaned s u jobId = ⟨404, .errorMsg "Cleaned file not found"⟩
    ∧ getCleaningResult s u jobId = getCleaningResult (removeJob s jobId) u jobId
    ∧ getCleaningResult s u jobId = ⟨404, .errorMsg "Not found"⟩ := by
  have h1 := findOwnedJob_none_of_other hrole hfind hown
  have h2 := findOwnedJob_removeJob_none s u jobId
  refine ⟨?_, ?_, ?_, ?_, ?_, ?_, ?_, ?_, ?_, ?_, ?_, ?_, ?_, ?_, ?_, ?_⟩
  · simp [postAnalyze, h1, h2]
  · simp [postAnalyze, h1]
  · simp [postAnalyze, h1]
  · simp [getStatus, h1, h2]
  · simp [getStatus, h1]
  · simp [getResults, h1, h2]
  · simp [getResults, h1]
  · simp [getResultsExport, h1, h2]
  · simp [getResultsExport, h1]
  · simp [postClean, h1, h2]
  · simp [postClean, h1]
  · simp [postClean, h1]
  · simp [getCleaned, h1, h2]
  · simp [getCleaned, h1]
  · simp [getCleaningResult, h1, h2]
  · simp [getCleaningResult, h1]

/-- Witness for C5 at a concrete input: a different user probing another
owner's job gets `unknown` status and a results 404. -/
theorem c5_nonowner_witness :
    getStatus c1St c5User "j1" = ⟨200, .statusMsg "unknown"⟩
    ∧ getResults c1St c5User "j1" = ⟨404, .detailMsg "Results not found"⟩ := by
  have h := c5_nonowner_indistinguishable c1St c5User "j1" c1Job none none
    (by decide) (by decide) (by decide)
  exact ⟨h.2.2.2.2.1, h.2.2.2.2.2.2.1⟩

/-! ### Claim C6 -/

theorem upsert_twice {α : Type} (key : α → String) (l : List α) (r1 r2 : α)
    (hk : key r1 = key r2)
    (hl : l.countP (fun x => key x == key r2) ≤ 1) :
    (upsertBy key (upsertBy key l r1) r2).filter
        (fun x => key x == key r2) = [r2]
    ∧ (upsertBy key (upsertBy key l r1) r2).countP
        (fun x => key x == key r2) = 1 := by
  have hl1 : l.countP (fun x => key x == key r1) ≤ 1 := by
    rw [hk]
    exact hl
  have hf1 : (upsertBy key l r1).filter (fun x => key x == key r1) = [r1] :=
    filter_upsertBy key l r1 hl1
  have hc1 : (upsertBy key l r1).countP (fun x => key x == key r2) ≤ 1 := by
    rw [← hk, List.countP_eq_length_filter, hf1]
    exact le_refl 1
  have hf2 : (upsertBy key (upsertBy key l r1) r2).filter
      (fun x => key x == key r2) = [r2] :=
    filter_upsertBy key (upsertBy key l r1) r2 hc1
  have hc2 : (upsertBy key (upsertBy key l r1) r2).countP
      (fun x => key x == key r2) = 1 := by
    rw [List.countP_eq_length_filter, hf2]
    rfl
  exact ⟨hf2, hc2⟩

/-- Claim C6: under the unique-index invariant (at most one live record per
job id), upserting twice for the same job id leaves exactly one record and
it is the second payload — for the analysis store and the cleaning store —
and a single upsert preserves the at-most-one invariant for every key. -/
theorem c6_upsert_single_record (l : List AnalysisRecord)
    (m : List CleaningRecord) (r1 r2 : AnalysisRecord)
    (q1 q2 : CleaningRecord)
    (hr : r1.job_id = r2.job_id) (hq : q1.job_id = q2.job_id)
    (hl : l.countP (fun x => x.job_id == r2.job_id) ≤ 1)
    (hm : m.countP (fun x => x.job_id == q2.job_id) ≤ 1) :
    ((upsertBy AnalysisRecord.job_id (upsertBy AnalysisRecord.job_id l r1)
        r2).filter (fun x => x.job_id == r2.job_id) = [r2]
      ∧ (upsertBy AnalysisRecord.job_id (upsertBy AnalysisRecord.job_id l r1)
        r2).countP (fun x => x.job_id == r2.job_id) = 1)
    ∧ ((upsertBy CleaningRecord.job_id (upsertBy CleaningRecord.job_id m q1)
        q2).filter (fun x => x.job_id == q2.job_id) = [q2]
      ∧ (upsertBy CleaningRecord.job_id (upsertBy CleaningRecord.job_id m q1)
        q2).countP (fun x => x.job_id == q2.job_id) = 1)
    ∧ (∀ (t : List AnalysisRecord) (r : AnalysisRecord) (i : String),
        t.countP (fun x => x.job_id == i) ≤ 1 →
        (upsertBy AnalysisRecord.job_id t r).countP (fun x => x.job_id == i) ≤ 1)
    ∧ (∀ (t : List CleaningRecord) (q : CleaningRecord) (i : String),
        t.countP (fun x => x.job_id == i) ≤ 1 →
        (upsertBy CleaningRecord.job_id t q).countP (fun x => x.job_id == i) ≤ 1) := by
  refine ⟨upsert_twice AnalysisRecord.job_id l r1 r2 hr hl,
    upsert_twice CleaningRecord.job_id m q1 q2 hq hm, ?_, ?_⟩
  · intro t r i h
    exact countP_upsertBy_le AnalysisRecord.job_id t r i h
  · intro t q i h
    exact countP_upsertBy_le CleaningRecord.job_id t q i h

/-- Witness for C6 at a concrete input: two successive upserts into an
empty store leave exactly the second record. -/
theorem c6_upsert_witness :
    (upsertBy AnalysisRecord.job_id (upsertBy AnalysisRecord.job_id [] c6Rec1)
        c6Rec2).filter (fun x => x.job_id == c6Rec2.job_id) = [c6Rec2]
    ∧ (upsertBy CleaningRecord.job_id (upsertBy CleaningRecord.job_id [] c6Crec1)
        c6Crec2).filter (fun x => x.job_id == c6Crec2.job_id) = [c6Crec2] := by
  have h := c6_upsert_single_record [] [] c6Rec1 c6Rec2 c6Crec1 c6Crec2
    (by decide) (by decide) (by decide) (by decide)
  exact ⟨h.1.1, h.2.1.1⟩

/-! ### Claim C8 -/

/-- Claim C8: an upload with a file creates exactly one new job whose id is
the generated uuid, whose status is `starting`, whose mode is `large`
exactly when the file size is strictly above the fixed 50 MiB threshold
(so a 10 KiB upload gets `normal`), owned by the caller, and the response
carries the new job id. -/
theorem c8_upload (s : St) (user : UserCtx) (jobId : String) (f : UploadFile) :
    ∃ job : Job,
      (postUpload s user jobId (some f)).1.jobs = s.jobs ++ [job]
      ∧ job.id = jobId
      ∧ job.status = Status.starting
      ∧ (job.mode = Mode.large ↔ 50 * 1024 * 1024 < f.size)
      ∧ (f.size = 10240 → job.mode = Mode.normal)
      ∧ job.user_id = user.id
      ∧ (postUpload s user jobId (some f)).2 = ⟨200, .jobIdMsg jobId⟩ := by
  refine ⟨{ id := jobId, status := .starting,
            mode := if f.size > UPLOAD_LARGE_THRESHOLD then Mode.large
                    else Mode.normal,
            user_id := user.id, file_name := f.originalname,
            file_path := some f.path, cleaned_file_path := none },
    rfl, rfl, rfl, ?_, ?_, rfl, rfl⟩
  · by_cases h : 50 * 1024 * 1024 < f.size
    · simp [UPLOAD_LARGE_THRESHOLD, h]
    · simp [UPLOAD_LARGE_THRESHOLD, h]
  · intro h
    simp [UPLOAD_LARGE_THRESHOLD, h]

/-- Witness for C8 at a concrete input: a 10-byte upload acknowledges with
the job id. -/
theorem c8_upload_witness :
    (postUpload c7St c7User "j1" (some c7File)).2 = ⟨200, .jobIdMsg "j1"⟩ := by
  obtain ⟨job, h⟩ := c8_upload c7St c7User "j1" c7File
  exact h.2.2.2.2.2.2

/-! ### Claim C10 -/

/-- Claim C10: the login endpoint answers the same 401 response with body
`Invalid email or password` both when no user has the given email and when
the user exists but the password check fails — it does not reveal whether
an email is registered. -/
theorem c10_login_no_user_enumeration (check : String → String → Bool)
    (users : List UserRec) (email password : String) (u : UserRec)
    (hne : email ≠ "") (hnp : password ≠ "") :
    (users.find? (fun x => x.email == email) = none →
      postLogin check users email password
        = ⟨401, .errorMsg "Invalid email or password"⟩)
    ∧ (users.find? (fun x => x.email == email) = some u →
        check password u.password_hash = false →
        postLogin check users email password
          = ⟨401, .errorMsg "Invalid email or password"⟩) := by
  constructor
  · intro h
    simp [postLogin, hne, hnp, h]
  · intro h hc
    simp [postLogin, hne, hnp, h, hc]

/-- Witness for C10 at concrete inputs: an unknown email and a known email
with a wrong password produce the identical 401 response. -/
theorem c10_login_witness :
    postLogin c10Check [c10User] "x@y.z" "password1"
      = ⟨401, .errorMsg "Invalid email or password"⟩
    ∧ postLogin c10Check [c10User] "a@b.c" "wrong-password"
      = ⟨401, .errorMsg "Invalid email or password"⟩ := by
  have h1 := c10_login_no_user_enumeration c10Check [c10User] "x@y.z"
    "password1" c10User (by decide) (by decide)
  have h2 := c10_login_no_user_enumeration c10Check [c10User] "a@b.c"
    "wrong-password" c10User (by decide) (by decide)
  exact ⟨h1.1 (by decide), h2.2 (by decide) (by decide)⟩

/-! ### Claim C9 -/

theorem filter_filter_of_imp (l : List Job) (p q : Job → Bool)
    (h : ∀ x ∈ l, p x = true → q x = true) :
    (l.filter q).filter p = l.filter p := by
  induction l with
  | nil => rfl
  | cons a as ih =>
    have ih' := ih (fun x hx hpx => h x (List.mem_cons_of_mem a hx) hpx)
    by_cases hp : p a = true
    · have hq := h a (List.mem_cons_self a as) hp
      simp [List.filter_cons, hp, hq, ih']
    · by_cases hq : q a = true
      · simp [List.filter_cons, hp, hq, ih']
      · simp [List.filter_cons, hp, hq, ih']

/-- Claim C9: for a non-admin caller, `DELETE /jobs` deletes exactly the
listed jobs owned by the caller — their job records, analysis results and
cleaning results are removed, every removed file path belongs to one of
them, and exactly their ids are reported — while a listed job owned by a
different subject survives in every store, never appears among the
reported ids, and its exclusion is silent: the response equals the one
computed on a store in which that job does not exist at all. -/
theorem c9_delete_owned_scope (s : St) (u : UserCtx) (ids : List String)
    (j : Job)
    (hrole : u.role ≠ "admin")
    (hnodup : (s.jobs.map Job.id).Nodup)
    (hj : j ∈ s.jobs) (hjid : j.id ∈ ids) (hjown : j.user_id ≠ u.id) :
    j ∈ (deleteJobs s u (some ids)).1.jobs
    ∧ (∀ r ∈ s.analysisResults, r.job_id = j.id →
        r ∈ (deleteJobs s u (some ids)).1.analysisResults)
    ∧ (∀ r ∈ s.cleaningResults, r.job_id = j.id →
        r ∈ (deleteJobs s u (some ids)).1.cleaningResults)
    ∧ (∀ p ∈ s.files, p ∉ (deleteJobs s u (some ids)).1.files →
        ∃ x, x ∈ s.jobs ∧ x.id ∈ ids ∧ x.user_id = u.id
          ∧ (x.file_path = some p ∨ x.cleaned_file_path = some p))
    ∧ (∀ x ∈ s.jobs, x.id ∈ ids → x.user_id = u.id →
        x ∉ (deleteJobs s u (some ids)).1.jobs
        ∧ (∀ r ∈ (deleteJobs s u (some ids)).1.analysisResults,
            r.job_id ≠ x.id)
        ∧ (∀ r ∈ (deleteJobs s u (some ids)).1.cleaningResults,
            r.job_id ≠ x.id)
        ∧ (∃ n zs, (deleteJobs s u (some ids)).2 = ⟨200, .deleteOk n zs⟩
            ∧ x.id ∈ zs))
    ∧ (∀ n zs, (deleteJobs s u (some ids)).2 = ⟨200, .deleteOk n zs⟩ →
        j.id ∉ zs)
    ∧ (deleteJobs s u (some ids)).2
        = (deleteJobs (removeJob s j.id) u (some ids)).2 := by
  have hinj := List.inj_on_of_nodup_map hnodup
  have hid0 : ids.isEmpty = false := by
    cases ids with
    | nil => cases hjid
    | cons a as => rfl
  have hrimp : (u.role == "admin") = false := beq_eq_false_iff_ne.mpr hrole
  have hoimp : (j.user_id == u.id) = false := beq_eq_false_iff_ne.mpr hjown
  have hpredj : deleteFilter u ids j = false := by
    simp [deleteFilter, hrimp, hoimp]
  have himp : ∀ x ∈ s.jobs, deleteFilter u ids x = true →
      (!(x.id == j.id)) = true := by
    intro x hx hpx
    by_cases hidq : x.id = j.id
    · have hxj : x = j := hinj hx hj hidq
      rw [hxj, hpredj] at hpx
      cases hpx
    · simp [hidq]
  have howned_eq : (removeJob s j.id).jobs.filter (deleteFilter u ids)
      = s.jobs.filter (deleteFilter u ids) :=
    filter_filter_of_imp s.jobs (deleteFilter u ids)
      (fun x => !(x.id == j.id)) himp
  have hownedP : ∀ x ∈ s.jobs.filter (deleteFilter u ids),
      x.id ∈ ids ∧ x.user_id = u.id := by
    intro x hx
    rcases List.mem_filter.mp hx with ⟨_, hpx⟩
    simp [deleteFilter, hrimp, List.elem_iff] at hpx
    exact hpx
  have hjidnot : j.id ∉ (s.jobs.filter (deleteFilter u ids)).map Job.id := by
    intro hmem
    rcases List.mem_map.mp hmem with ⟨x, hxmem, hxid⟩
    rcases List.mem_filter.mp hxmem with ⟨hxs, hpx⟩
    have hxj : x = j := hinj hxs hj hxid
    rw [hxj, hpredj] at hpx
    cases hpx
  by_cases hOE : ((s.jobs.filter (deleteFilter u ids)).map Job.id).isEmpty = true
  · have hR : deleteJobs s u (some ids)
        = (s, ⟨404, .errorMsg "No matching jobs found"⟩) := by
      unfold deleteJobs
      simp [hid0, hOE]
    have hR' : deleteJobs (removeJob s j.id) u (some ids)
        = (removeJob s j.id, ⟨404, .errorMsg "No matching jobs found"⟩) := by
      unfold deleteJobs
      simp [hid0, howned_eq, hOE]
    have hOnil : (s.jobs.filter (deleteFilter u ids)).map Job.id = [] :=
      List.isEmpty_iff.mp hOE
    refine ⟨?_, ?_, ?_, ?_, ?_, ?_, ?_⟩
    · rw [hR]
      exact hj
    · intro r hr _
      rw [hR]
      exact hr
    · intro r hr _
      rw [hR]
      exact hr
    · intro p hp hrem
      rw [hR] at hrem
      exact absurd hp hrem
    · intro x hx hxid hxu
      exfalso
      have hpx : deleteFilter u ids x = true := by
        simp [deleteFilter, List.elem_iff, hxid, hxu]
      have hxidmem : x.id ∈ (s.jobs.filter (deleteFilter u ids)).map Job.id :=
        List.mem_map.mpr ⟨x, List.mem_filter.mpr ⟨hx, hpx⟩, rfl⟩
      rw [hOnil] at hxidmem
      cases hxidmem
    · intro n zs h
      rw [hR] at h
      simp at h
    · rw [hR, hR']
  · have hOE' : ((s.jobs.filter (deleteFilter u ids)).map Job.id).isEmpty
        = false := by
      simpa using hOE
    have hR : deleteJobs s u (some ids)
        = ({ jobs := s.jobs.filter (fun x =>
               !(((s.jobs.filter (deleteFilter u ids)).map Job.id).contains
                   x.id)),
             analysisResults := s.analysisResults.filter (fun r =>
               !(((s.jobs.filter (deleteFilter u ids)).map Job.id).contains
                   r.job_id)),
             cleaningResults := s.cleaningResults.filter (fun r =>
               !(((s.jobs.filter (deleteFilter u ids)).map Job.id).contains
                   r.job_id)),
             audit := s.audit ++
               ((s.jobs.filter (deleteFilter u ids)).map Job.id).map
                 (fun i => { job_id := some i, event_type := "JOB_DELETED",
                             payload := .deletedBy u.id }),
             files := s.files.filter (fun p =>
               !((s.jobs.filter (deleteFilter u ids)).any (fun x =>
                   x.file_path == some p || x.cleaned_file_path == some p))) },
           ⟨200, .deleteOk
              ((s.jobs.filter (deleteFilter u ids)).map Job.id).length
              ((s.jobs.filter (deleteFilter u ids)).map Job.id)⟩) := by
      unfold deleteJobs
      simp only [hid0, hOE', Bool.false_eq_true, if_false]
      rw [foldl_auditLog_jobDeleted]
    have hR2 : (deleteJobs (removeJob s j.id) u (some ids)).2
        = ⟨200, .deleteOk
            ((s.jobs.filter (deleteFilter u ids)).map Job.id).length
            ((s.jobs.filter (deleteFilter u ids)).map Job.id)⟩ := by
      unfold deleteJobs
      simp only [hid0, Bool.false_eq_true, if_false]
      rw [howned_eq]
      simp only [hOE', Bool.false_eq_true, if_false]
    refine ⟨?_, ?_, ?_, ?_, ?_, ?_, ?_⟩
    · rw [hR]
      refine List.mem_filter.mpr ⟨hj, ?_⟩
      simp [List.elem_iff, hjidnot]
    · intro r hr heq
      rw [hR]
      refine List.mem_filter.mpr ⟨hr, ?_⟩
      rw [heq]
      simp [List.elem_iff, hjidnot]
    · intro r hr heq
      rw [hR]
      refine List.mem_filter.mpr ⟨hr, ?_⟩
      rw [heq]
      simp [List.elem_iff, hjidnot]
    · intro p hp hrem
      rw [hR] at hrem
      have hpred : ¬ (!((s.jobs.filter (deleteFilter u ids)).any (fun x =>
          x.file_path == some p || x.cleaned_file_path == some p))) = true := by
        intro hpred
        exact hrem (List.mem_filter.mpr ⟨hp, hpred⟩)
      have hany : (s.jobs.filter (deleteFilter u ids)).any (fun x =>
          x.file_path == some p || x.cleaned_file_path == some p) = true := by
        cases hb : (s.jobs.filter (deleteFilter u ids)).any (fun x =>
            x.file_path == some p || x.cleaned_file_path == some p)
        · exact absurd (by rw [hb]; rfl) hpred
        · rfl
      rcases List.any_eq_true.mp hany with ⟨x, hxo, hmatch⟩
      rcases hownedP x hxo with ⟨hxid, hxu⟩
      rcases List.mem_filter.mp hxo with ⟨hxs, _⟩
      refine ⟨x, hxs, hxid, hxu, ?_⟩
      simp only [Bool.or_eq_true] at hmatch
      rcases hmatch with hm | hm
      · exact Or.inl (beq_iff_eq.mp hm)
      · exact Or.inr (beq_iff_eq.mp hm)
    · intro x hx hxid hxu
      have hpx : deleteFilter u ids x = true := by
        simp [deleteFilter, List.elem_iff, hxid, hxu]
      have hxidmem : x.id ∈ (s.jobs.filter (deleteFilter u ids)).map Job.id :=
        List.mem_map.mpr ⟨x, List.mem_filter.mpr ⟨hx, hpx⟩, rfl⟩
      refine ⟨?_, ?_, ?_, ?_⟩
      · intro hmem
        rw [hR] at hmem
        rcases List.mem_filter.mp hmem with ⟨_, hc⟩
        rw [Bool.not_eq_true'] at hc
        have hm2 : ((s.jobs.filter (deleteFilter u ids)).map Job.id).contains
            x.id = true := List.elem_iff.mpr hxidmem
        rw [hm2] at hc
        cases hc
      · intro r hr heq
        rw [hR] at hr
        rcases List.mem_filter.mp hr with ⟨_, hc⟩
        rw [Bool.not_eq_true', heq] at hc
        have hm2 : ((s.jobs.filter (deleteFilter u ids)).map Job.id).contains
            x.id = true := List.elem_iff.mpr hxidmem
        rw [hm2] at hc
        cases hc
      · intro r hr heq
        rw [hR] at hr
        rcases List.mem_filter.mp hr with ⟨_, hc⟩
        rw [Bool.not_eq_true', heq] at hc
        have hm2 : ((s.jobs.filter (deleteFilter u ids)).map Job.id).contains
            x.id = true := List.elem_iff.mpr hxidmem
        rw [hm2] at hc
        cases hc
      · refine ⟨((s.jobs.filter (deleteFilter u ids)).map Job.id).length,
          (s.jobs.filter (deleteFilter u ids)).map Job.id, ?_, hxidmem⟩
        rw [hR]
    · intro n zs h
      rw [hR] at h
      simp only [HttpResp.mk.injEq, RespBody.deleteOk.injEq] at h
      rcases h with ⟨_, _, hzs⟩
      rw [← hzs]
      exact hjidnot
    · rw [hR, hR2]

/-- Witness for C9 at a concrete input: deleting a list naming another
owner's job leaves that job in the store and reports a 404 (no owned
match), exactly as when the job does not exist. -/
theorem c9_delete_witness :
    c1Job ∈ (deleteJobs c1St c5User (some ["j1"])).1.jobs
    ∧ (deleteJobs c1St c5User (some ["j1"])).2
        = (deleteJobs (removeJob c1St "j1") c5User (some ["j1"])).2 := by
  have h := c9_delete_owned_scope c1St c5User ["j1"] c1Job
    (by decide) (by decide) (by decide) (by decide) (by decide)
  exact ⟨h.1, h.2.2.2.2.2.2⟩

end BackendNode
